import Mathlib

/-!
Formal model of the agent clearinghouse contract-lifecycle engine.

The definitions below are shallow embeddings of the Python sources:
  * `domain/state_machine.py`  — the escrow state machine guard,
  * `services/escrow_service.py` — the transactional escrow service,
  * `services/verification_service.py` — the verify-then-record pipeline,
  * `verifiers/code_execution.py`, `verifiers/semantic.py`,
    `verifiers/schema_validator.py` — the three verifier strategies.

Python strings are modelled as Lean `String`; string helpers such as
`strip`, `upper`, and substring containment are re-implemented on the
underlying character lists so that they reduce in the kernel.
-/

namespace ACH

/-- The eight escrow statuses declared in `EscrowStateMachine` (and the
`EscrowStatus` enum in `domain/enums.py`). -/
inductive Status
  | CREATED
  | FUNDED
  | IN_PROGRESS
  | SUBMITTED
  | VERIFYING
  | COMPLETED
  | FAILED
  | DISPUTED
  deriving DecidableEq, Repr, Fintype

/-- String value of a status, as used by `EscrowStatus` / `State(...)`. -/
def Status.value : Status → String
  | .CREATED => "CREATED"
  | .FUNDED => "FUNDED"
  | .IN_PROGRESS => "IN_PROGRESS"
  | .SUBMITTED => "SUBMITTED"
  | .VERIFYING => "VERIFYING"
  | .COMPLETED => "COMPLETED"
  | .FAILED => "FAILED"
  | .DISPUTED => "DISPUTED"

/-- The eight states of the machine (`self.states` in the source). -/
def allStatuses : List Status :=
  [.CREATED, .FUNDED, .IN_PROGRESS, .SUBMITTED, .VERIFYING, .COMPLETED,
   .FAILED, .DISPUTED]

/-- The eleven named events of `EscrowStateMachine`. -/
inductive Event
  | on_chain_confirmed
  | timeout_expired
  | worker_accepts
  | worker_submits
  | auto_verify
  | verification_passed
  | verification_failed_retry
  | max_retries_exceeded
  | buyer_disputes
  | dispute_resolved_for_worker
  | dispute_resolved_for_buyer
  deriving DecidableEq, Repr, Fintype

/-- All events, in declaration order. -/
def allEvents : List Event :=
  [.on_chain_confirmed, .timeout_expired, .worker_accepts, .worker_submits,
   .auto_verify, .verification_passed, .verification_failed_retry,
   .max_retries_exceeded, .buyer_disputes, .dispute_resolved_for_worker,
   .dispute_resolved_for_buyer]

/-- Transition function of `EscrowStateMachine` (state_machine.py lines
52–72): `some target` when the event is declared from the state, `none`
otherwise. `buyer_disputes` is declared from both FUNDED and IN_PROGRESS. -/
def transition : Status → Event → Option Status
  | .CREATED, .on_chain_confirmed => some .FUNDED
  | .CREATED, .timeout_expired => some .FAILED
  | .FUNDED, .worker_accepts => some .IN_PROGRESS
  | .IN_PROGRESS, .worker_submits => some .SUBMITTED
  | .SUBMITTED, .auto_verify => some .VERIFYING
  | .VERIFYING, .verification_passed => some .COMPLETED
  | .VERIFYING, .verification_failed_retry => some .IN_PROGRESS
  | .VERIFYING, .max_retries_exceeded => some .FAILED
  | .FUNDED, .buyer_disputes => some .DISPUTED
  | .IN_PROGRESS, .buyer_disputes => some .DISPUTED
  | .DISPUTED, .dispute_resolved_for_worker => some .COMPLETED
  | .DISPUTED, .dispute_resolved_for_buyer => some .FAILED
  | _, _ => none

/-- Errors raised by the state machine layer: `ValueError` for an unknown
start status, `TransitionNotAllowed` for an event not declared from the
current state. -/
inductive SMError
  | unknownState (s : String)
  | illegalTransition (current : Status) (attempted : Event)
  deriving DecidableEq, Repr

instance {ε α : Type} [DecidableEq ε] [DecidableEq α] : DecidableEq (Except ε α)
  | .ok a, .ok b => decidable_of_iff (a = b) (by simp)
  | .error a, .error b => decidable_of_iff (a = b) (by simp)
  | .ok _, .error _ => isFalse (by simp)
  | .error _, .ok _ => isFalse (by simp)

/-- Firing an event: returns the new state, or the illegal-transition error
carrying the current state and the attempted event (as `_fire_transition`
in escrow_service.py reports it via `InvalidStateTransitionError`). -/
def fire (s : Status) (e : Event) : Except SMError Status :=
  match transition s e with
  | some t => .ok t
  | none => .error (.illegalTransition s e)

/-- Constructing the machine (`EscrowStateMachine.__init__`): the status
string must be the value of one of the eight states, else `ValueError`. -/
def mkMachine (currentStatus : String) : Except SMError Status :=
  match allStatuses.find? (fun st => st.value == currentStatus) with
  | some st => .ok st
  | none => .error (.unknownState currentStatus)

/-- Events that can fire from a state (`get_allowed_events`). -/
def allowedEvents (s : Status) : List Event :=
  allEvents.filter (fun e => (transition s e).isSome)

/-- The transition table of spec section 4.1, row by row. -/
def specTable : List (Status × Event × Status) :=
  [(.CREATED, .on_chain_confirmed, .FUNDED),
   (.CREATED, .timeout_expired, .FAILED),
   (.FUNDED, .worker_accepts, .IN_PROGRESS),
   (.IN_PROGRESS, .worker_submits, .SUBMITTED),
   (.SUBMITTED, .auto_verify, .VERIFYING),
   (.VERIFYING, .verification_passed, .COMPLETED),
   (.VERIFYING, .verification_failed_retry, .IN_PROGRESS),
   (.VERIFYING, .max_retries_exceeded, .FAILED),
   (.FUNDED, .buyer_disputes, .DISPUTED),
   (.IN_PROGRESS, .buyer_disputes, .DISPUTED),
   (.DISPUTED, .dispute_resolved_for_worker, .COMPLETED),
   (.DISPUTED, .dispute_resolved_for_buyer, .FAILED)]

/-! ### Python string helpers

Reimplementations, on the underlying character lists, of the Python string
operations used by the verifiers: `str.strip`, `str.upper`, substring
containment (`in`), slicing, `split("\n")` and `split(":", 1)[1]`. -/

namespace Py

/-- Whitespace test used by `str.strip`. -/
def isSpace (c : Char) : Bool := c.isWhitespace

/-- Drop whitespace from both ends of a character list. -/
def stripChars (cs : List Char) : List Char :=
  ((cs.dropWhile isSpace).reverse.dropWhile isSpace).reverse

/-- Python `s.strip()`. -/
def strip (s : String) : String := (stripChars s.data).asString

/-- Python `s.upper()` (ASCII, as used by the judge-response parser). -/
def upper (s : String) : String := (s.data.map Char.toUpper).asString

/-- Contiguous containment on character lists. -/
def containsList (needle : List Char) : List Char → Bool
  | [] => needle.isPrefixOf []
  | c :: cs => needle.isPrefixOf (c :: cs) || containsList needle cs

/-- Python `needle in hay` substring containment. -/
def containsSub (needle hay : String) : Bool := containsList needle.data hay.data

/-- Python `s[:n]` prefix slicing. -/
def take (n : Nat) (s : String) : String := (s.data.take n).asString

/-- Helper for `split("\n")`: accumulate the current line in reverse. -/
def splitNlAux : List Char → List Char → List (List Char)
  | [], acc => [acc.reverse]
  | c :: cs, acc =>
    if c = '\n' then acc.reverse :: splitNlAux cs []
    else splitNlAux cs (c :: acc)

/-- Python `s.split("\n")`. -/
def splitLines (s : String) : List String :=
  (splitNlAux s.data []).map List.asString

/-- Characters after the first colon: Python `s.split(":", 1)[1]` (empty
when there is no colon; the caller only uses it after a `VERDICT:` or
`SCORE:` prefix check, which guarantees a colon). -/
def afterColon : List Char → List Char
  | [] => []
  | c :: cs => if c = ':' then cs else afterColon cs

/-- Python `a or b` on optional strings: `a` unless it is `None` or empty. -/
def orStr (a b : Option String) : Option String :=
  match a with
  | some s => if s = "" then b else some s
  | none => b

end Py

/-! ### Semantic verifier (verifiers/semantic.py)

`_parse_response` walks the response lines; a line whose stripped,
upper-cased form starts with `VERDICT:` sets the verdict to whether the
text after the colon, stripped and upper-cased, equals `TRUE`. A later
`VERDICT:` line overwrites an earlier one. The `SCORE:`/`REASONING:`
branches of the same loop do not touch the verdict, so the verdict
component is the fold below. -/

/-- Test from `_parse_response`: the stripped line, upper-cased, starts
with `VERDICT:`. -/
def isVerdictLine (l : String) : Bool :=
  "VERDICT:".data.isPrefixOf (Py.upper (Py.strip l)).data

/-- Value test from `_parse_response`: the text after the first colon of
the stripped line, stripped and upper-cased, equals `TRUE`. -/
def verdictLineTrue (l : String) : Bool :=
  Py.upper (Py.strip (Py.afterColon (Py.strip l).data).asString) == "TRUE"

/-- Verdict component of `SemanticVerifier._parse_response`. -/
def parseVerdict (response : String) : Bool :=
  (Py.splitLines response).foldl
    (fun verdict rawLine =>
      if isVerdictLine rawLine then verdictLineTrue rawLine else verdict)
    false

/-- Result record shared by the verifier strategies
(`VerificationResult` in domain/verifier_protocol.py), parameterized by
the shape of the `logs` payload each strategy writes; `logs = none`
models the default empty dict. Scores are exact rationals. -/
structure VerifResult (L : Type) where
  is_valid : Bool
  score : Option ℚ
  details : String
  logs : Option L
  error : Option String
  deriving DecidableEq

/-- Logs written by `SemanticVerifier.verify`. -/
inductive SemanticLogs
  | result (llm_response : String) (criteria : String) (model : String)
  | onException (exc : String)
  deriving DecidableEq

/-- Shallow embedding of `SemanticVerifier.verify`. The LLM call is an
external effect, passed in as its outcome (`.ok content` after the
tenacity retries, `.error exc` when they all fail or the response is
empty); score parsing (Python `float(...)` plus clamping) and reasoning
extraction are passed as oracles since no claim depends on them. An empty
`criteria` models both a missing and an empty `criteria` key
(`verification_config.get("criteria", "")` is falsy in both cases). -/
def semanticVerify (criteria : String) (model : String)
    (llmOutcome : Except String String)
    (parseScore : String → ℚ) (parseReasoning : String → String) :
    VerifResult SemanticLogs :=
  if criteria = "" then
    { is_valid := false, score := none,
      details := "No 'criteria' field in verification_logic.",
      logs := none, error := some "MISSING_CRITERIA" }
  else
    match llmOutcome with
    | .ok llmResponse =>
      { is_valid := parseVerdict llmResponse,
        score := some (parseScore llmResponse),
        details := parseReasoning llmResponse,
        logs := some (.result llmResponse criteria model),
        error := none }
    | .error exc =>
      { is_valid := false, score := none,
        details := "LLM judge failed: " ++ exc,
        logs := some (.onException exc),
        error := some "LLM_JUDGE_ERROR" }

/-! ### Code-execution verifier (verifiers/code_execution.py) -/

/-- Outcome of `_run_in_sandbox` (after its bounded internal retries):
normal completion with collected stdout/stderr and exit code, a
`TimeoutError`, or any other exception. -/
inductive SandboxOutcome
  | finished (stdout : String) (stderr : String) (exitCode : Int)
  | timedOut
  | raised (exc : String)
  deriving DecidableEq

/-- Logs written by `CodeExecutionVerifier.verify`. -/
inductive CodeLogs
  | run (stdout : String) (stderr : String) (exitCode : Int)
      (timeout : Int) (expected_output : String)
  | onTimeout (timeout : Int)
  | onException (exc : String)
  deriving DecidableEq

/-- Shallow embedding of `CodeExecutionVerifier.verify`. The resolved
API key is falsy (`if not config["api_key"]`) when it is `None` or the
empty string. Note the source strips `expected_output` before the
emptiness test, so a whitespace-only configured value is treated as
absent. -/
def codeExecVerify (apiKey : Option String) (expectedOutputCfg : Option String)
    (timeout : Int) (outcome : SandboxOutcome) : VerifResult CodeLogs :=
  let expected_output := Py.strip (expectedOutputCfg.getD "")
  if apiKey.getD "" = "" then
    { is_valid := false, score := none,
      details := "E2B API key not configured.",
      logs := none, error := some "MISSING_E2B_API_KEY" }
  else
    match outcome with
    | .finished stdout stderr exitCode =>
      let logs := CodeLogs.run stdout stderr exitCode timeout expected_output
      if exitCode ≠ 0 then
        { is_valid := false, score := none,
          details := "Code exited with non-zero exit code: " ++ toString exitCode,
          logs := some logs, error := none }
      else if expected_output ≠ "" then
        let stdout_stripped := Py.strip stdout
        if Py.containsSub expected_output stdout_stripped then
          { is_valid := true, score := some 1,
            details := "Code executed successfully. Expected output '"
              ++ expected_output ++ "' found in stdout.",
            logs := some logs, error := none }
        else
          { is_valid := false, score := none,
            details := "Code ran successfully but output doesn't match. Expected '"
              ++ expected_output ++ "' in stdout, got: '"
              ++ Py.take 200 stdout_stripped ++ "'",
            logs := some logs, error := none }
      else
        { is_valid := true, score := some 1,
          details := "Code executed successfully with exit code 0.",
          logs := some logs, error := none }
    | .timedOut =>
      { is_valid := false, score := none,
        details := "Code execution timed out after " ++ toString timeout
          ++ " seconds.",
        logs := some (.onTimeout timeout),
        error := some "EXECUTION_TIMEOUT" }
    | .raised exc =>
      { is_valid := false, score := none,
        details := "Sandbox execution failed: " ++ exc,
        logs := some (.onException exc),
        error := some "SANDBOX_ERROR" }

/-! ### Schema verifier (verifiers/schema_validator.py) -/

/-- One element of a jsonschema error path: an array index or an object
key. -/
inductive PathElem
  | idx (n : Nat)
  | key (s : String)
  deriving DecidableEq

/-- One entry of the `validation_errors` log list: the `{path, message,
schema_path}` record built from a jsonschema `ValidationError`. -/
structure VError where
  path : List PathElem
  message : String
  schema_path : List PathElem
  deriving DecidableEq

/-- Comparison of path elements, mirroring Python comparison of the
`int | str` values in `list(err.path)` (indices by value, keys
lexicographically; a mixed pair, which would raise `TypeError` in Python,
is deterministically ordered index-first). -/
def PathElem.cmp : PathElem → PathElem → Ordering
  | .idx n, .idx m => if n < m then .lt else if m < n then .gt else .eq
  | .idx _, .key _ => .lt
  | .key _, .idx _ => .gt
  | .key s, .key t => if s < t then .lt else if t < s then .gt else .eq

/-- Lexicographic comparison of error paths, mirroring Python list
comparison used by `sorted(..., key=lambda e: list(e.path))`. -/
def pathCmp : List PathElem → List PathElem → Ordering
  | [], [] => .eq
  | [], _ :: _ => .lt
  | _ :: _, [] => .gt
  | a :: as, b :: bs =>
    match PathElem.cmp a b with
    | .eq => pathCmp as bs
    | o => o

/-- Sort order on validation errors: by path, non-strictly. -/
def vErrLe (a b : VError) : Prop := pathCmp a.path b.path ≠ .gt

instance : DecidableRel vErrLe := fun a b => by unfold vErrLe; infer_instance

/-- Outcome of building the `Draft7Validator` and running `iter_errors`:
a normally returned error list, a `jsonschema.SchemaError`, or any other
exception. -/
inductive ValidationOutcome
  | errs (errors : List VError)
  | schemaError (msg : String)
  | otherExc (msg : String)
  deriving DecidableEq

/-- Logs written by `SchemaVerifier.verify`. -/
inductive SchemaLogs (S J : Type)
  | parseFailed (raw_payload_preview : String)
  | invalid (validation_errors : List VError) (schema : S)
  | valid (schema : S) (parsed_payload : J)
  deriving DecidableEq

/-- Shallow embedding of `SchemaVerifier.verify`, parameterized over the
external `json.loads` (`parseJson`, `.error exc` on `JSONDecodeError`)
and jsonschema validation (`validate`). `requirementsSchema = none`
models a missing (or falsy, e.g. empty) `requirements_schema`. The
returned error list is sorted by path exactly as the source sorts it
before counting and logging. -/
def schemaVerify {S J : Type} (requirementsSchema : Option S) (payload : String)
    (parseJson : String → Except String J)
    (validate : S → J → ValidationOutcome) : VerifResult (SchemaLogs S J) :=
  match requirementsSchema with
  | none =>
    { is_valid := false, score := none,
      details := "No requirements_schema provided on the contract.",
      logs := none, error := some "MISSING_SCHEMA" }
  | some schema =>
    match parseJson payload with
    | .error exc =>
      { is_valid := false, score := none,
        details := "Payload is not valid JSON: " ++ exc,
        logs := some (.parseFailed (Py.take 500 payload)),
        error := some "INVALID_JSON" }
    | .ok parsed =>
      match validate schema parsed with
      | .errs rawErrors =>
        let errors := rawErrors.insertionSort vErrLe
        if errors.isEmpty then
          { is_valid := true, score := some 1,
            details := "Payload successfully validated against the JSON Schema.",
            logs := some (.valid schema parsed), error := none }
        else
          { is_valid := false, score := none,
            details := "Schema validation failed with "
              ++ toString errors.length ++ " error(s).",
            logs := some (.invalid errors schema), error := none }
      | .schemaError exc =>
        { is_valid := false, score := none,
          details := "The requirements_schema itself is invalid: " ++ exc,
          logs := none, error := some "INVALID_SCHEMA" }
      | .otherExc exc =>
        { is_valid := false, score := none,
          details := "Unexpected error during schema validation: " ++ exc,
          logs := none, error := some "SCHEMA_VERIFIER_ERROR" }

/-- The eight verification-error subtypes named by the spec's error
taxonomy (section 7). -/
def specErrorCodes : List String :=
  ["SANDBOX_ERROR", "EXECUTION_TIMEOUT", "LLM_JUDGE_ERROR", "INVALID_JSON",
   "INVALID_SCHEMA", "MISSING_SCHEMA", "MISSING_CRITERIA",
   "MISSING_SANDBOX_KEY"]

/-- The error codes the three strategy implementations actually emit:
the source uses `MISSING_E2B_API_KEY` where the spec says
`MISSING_SANDBOX_KEY`, and the schema strategy's catch-all emits
`SCHEMA_VERIFIER_ERROR`, which the spec's taxonomy omits. -/
def implErrorCodes : List String :=
  ["SANDBOX_ERROR", "EXECUTION_TIMEOUT", "LLM_JUDGE_ERROR", "INVALID_JSON",
   "INVALID_SCHEMA", "MISSING_SCHEMA", "MISSING_CRITERIA",
   "MISSING_E2B_API_KEY", "SCHEMA_VERIFIER_ERROR"]

/-! ### Escrow service (services/escrow_service.py)

The service operates on a database state holding the three tables of
orm_models.py. Identifiers (UUIDs in the source) are modelled as natural
numbers allocated from a `next_id` counter. Verification-result payloads
(the `verification_result` dicts passed through the service and stored on
submissions and event metadata) are an opaque type parameter `V`. The two
JSON configuration columns (`verification_logic`, `requirements_schema`)
are carried by no modelled operation's branching, so they are omitted
from the contract record; the verifier dispatch that reads them is
abstracted as a parameter of `verify_latest_submission`. Timestamp
columns are omitted. -/

/-- The escrow_contracts row (orm_models.py `EscrowContract`). -/
structure Contract where
  id : Nat
  buyer_wallet : String
  worker_wallet : Option String
  amount_usdc : ℚ
  escrow_wallet_address : Option String
  funding_tx_hash : Option String
  settlement_tx_hash : Option String
  status : Status
  description : String
  max_retries : Nat
  retry_count : Nat
  deriving DecidableEq

/-- The work_submissions row (orm_models.py `WorkSubmission`), carrying
an opaque verification-result payload. -/
structure Submission (V : Type) where
  id : Nat
  contract_id : Nat
  payload : String
  submitted_by : Option String
  verification_result : Option V
  is_valid : Option Bool
  deriving DecidableEq

/-- The audit event types (domain/enums.py `EventType`). -/
inductive EventType
  | CONTRACT_CREATED
  | CONTRACT_FUNDED
  | WORKER_ASSIGNED
  | WORK_SUBMITTED
  | VERIFICATION_STARTED
  | VERIFICATION_PASSED
  | VERIFICATION_FAILED
  | PAYMENT_INITIATED
  | PAYMENT_CONFIRMED
  | DISPUTE_RAISED
  | DISPUTE_RESOLVED_WORKER
  | DISPUTE_RESOLVED_BUYER
  | CONTRACT_EXPIRED
  | MAX_RETRIES_EXCEEDED
  deriving DecidableEq, Repr, Fintype

/-- Metadata dict attached to an audit event, one shape per call site of
`EventRepository.record` in escrow_service.py / verification flow. The
retry events write `{"retry_count": n, **verification_result}`; since the
spread-in result dict carries no `retry_count` key of its own
(`VerificationResult.to_dict` has fixed keys), the merge is modelled as
the pair. -/
inductive EvMeta (V : Type)
  | empty
  | created (description : String)
  | funded (tx_hash : String) (escrow_wallet : String)
  | workSubmitted (submission_id : Nat)
  | passedResult (result : V)
  | retryInfo (retry_count : Nat) (result : V)
  | disputeReason (reason : String)
  deriving DecidableEq

/-- The escrow_events row (orm_models.py `EscrowEvent`). -/
structure EventRec (V : Type) where
  contract_id : Nat
  event_type : EventType
  old_status : Option Status
  new_status : Status
  actor : String
  metadata : EvMeta V
  deriving DecidableEq

/-- The persistent store: the three tables plus the fresh-identifier
counter standing in for UUID generation. -/
structure DB (V : Type) where
  contracts : List Contract
  submissions : List (Submission V)
  events : List (EventRec V)
  next_id : Nat
  deriving DecidableEq

/-- Errors raised by the escrow service (domain/exceptions.py):
`ContractNotFoundError`, `InvalidStateTransitionError` (carrying the
current status and attempted event), `WorkerAlreadyAssignedError`. -/
inductive SvcError
  | contractNotFound (contract_id : Nat)
  | invalidStateTransition (current : Status) (attempted : Event)
  | workerAlreadyAssigned (contract_id : Nat)
  deriving DecidableEq, Repr

variable {V : Type}

/-- `EscrowRepository.get_by_id`. -/
def DB.getContract (db : DB V) (cid : Nat) : Option Contract :=
  db.contracts.find? (fun c => c.id == cid)

/-- Write back a mutated contract row (the ORM flushes the mutation of
the loaded row in place). -/
def DB.putContract (db : DB V) (c : Contract) : DB V :=
  { db with contracts := db.contracts.map (fun x => if x.id == c.id then c else x) }

/-- `EventRepository.record`: append one audit event. -/
def DB.record (db : DB V) (ev : EventRec V) : DB V :=
  { db with events := db.events ++ [ev] }

/-- `SubmissionRepository.get_by_id` followed by `update_verification`
when the submission exists (the pattern of both record-verification
methods). -/
def DB.updateSubmission (db : DB V) (sid : Nat) (valid : Bool) (vr : V) : DB V :=
  match db.submissions.find? (fun s => s.id == sid) with
  | some _ =>
    { db with submissions := db.submissions.map (fun s =>
        if s.id == sid then
          { s with is_valid := some valid, verification_result := some vr }
        else s) }
  | none => db

/-- `SubmissionRepository.get_by_contract`: submissions of a contract,
newest first (rows are appended in submission order). -/
def submissionsFor (db : DB V) (cid : Nat) : List (Submission V) :=
  (db.submissions.filter (fun s => s.contract_id == cid)).reverse

/-- `EventRepository.get_by_contract`: events of a contract in
chronological order. -/
def eventsFor (db : DB V) (cid : Nat) : List (EventRec V) :=
  db.events.filter (fun e => e.contract_id == cid)

/-- `EscrowService.create_contract`: insert a CREATED contract and record
the CONTRACT_CREATED event with null old status. -/
def create_contract (db : DB V) (buyer_wallet : String) (amount_usdc : ℚ)
    (description : String) (max_retries : Nat) : DB V × Option SvcError :=
  let contract : Contract :=
    { id := db.next_id, buyer_wallet := buyer_wallet, worker_wallet := none,
      amount_usdc := amount_usdc, escrow_wallet_address := none,
      funding_tx_hash := none, settlement_tx_hash := none,
      status := .CREATED, description := description,
      max_retries := max_retries, retry_count := 0 }
  let db1 : DB V :=
    { db with contracts := db.contracts ++ [contract],
              next_id := db.next_id + 1 }
  (db1.record
    { contract_id := contract.id, event_type := .CONTRACT_CREATED,
      old_status := none, new_status := .CREATED, actor := buyer_wallet,
      metadata := .created description }, none)

/-- `EscrowService.fund_contract`: guard `on_chain_confirmed`, set the
funding fields, move to FUNDED, record CONTRACT_FUNDED. -/
def fund_contract (db : DB V) (cid : Nat) (tx_hash : String)
    (escrow_wallet_address : String) : DB V × Option SvcError :=
  match db.getContract cid with
  | none => (db, some (.contractNotFound cid))
  | some contract =>
    match fire contract.status .on_chain_confirmed with
    | .error _ => (db, some (.invalidStateTransition contract.status .on_chain_confirmed))
    | .ok _ =>
      let c1 := { contract with
        funding_tx_hash := some tx_hash,
        escrow_wallet_address := some escrow_wallet_address,
        status := Status.FUNDED }
      ((db.putContract c1).record
        { contract_id := contract.id, event_type := .CONTRACT_FUNDED,
          old_status := some .CREATED, new_status := .FUNDED,
          actor := "SYSTEM", metadata := .funded tx_hash escrow_wallet_address },
       none)

/-- `EscrowService.accept_contract`: reject a second worker, guard
`worker_accepts`, assign the worker, move to IN_PROGRESS, record
WORKER_ASSIGNED. -/
def accept_contract (db : DB V) (cid : Nat) (worker_wallet : String) :
    DB V × Option SvcError :=
  match db.getContract cid with
  | none => (db, some (.contractNotFound cid))
  | some contract =>
    if contract.worker_wallet.isSome then
      (db, some (.workerAlreadyAssigned cid))
    else
      match fire contract.status .worker_accepts with
      | .error _ => (db, some (.invalidStateTransition contract.status .worker_accepts))
      | .ok _ =>
        let c1 := { contract with
          worker_wallet := some worker_wallet, status := Status.IN_PROGRESS }
        ((db.putContract c1).record
          { contract_id := contract.id, event_type := .WORKER_ASSIGNED,
            old_status := some .FUNDED, new_status := .IN_PROGRESS,
            actor := worker_wallet, metadata := .empty }, none)

/-- `EscrowService.submit_work`: guard `worker_submits`, move to
SUBMITTED, insert the submission row, record WORK_SUBMITTED. -/
def submit_work (db : DB V) (cid : Nat) (payload : String)
    (worker_wallet : Option String) : DB V × Option SvcError :=
  match db.getContract cid with
  | none => (db, some (.contractNotFound cid))
  | some contract =>
    match fire contract.status .worker_submits with
    | .error _ => (db, some (.invalidStateTransition contract.status .worker_submits))
    | .ok _ =>
      let c1 := { contract with status := Status.SUBMITTED }
      let db1 := db.putContract c1
      let submission : Submission V :=
        { id := db1.next_id, contract_id := contract.id, payload := payload,
          submitted_by := Py.orStr worker_wallet contract.worker_wallet,
          verification_result := none, is_valid := none }
      let db2 : DB V :=
        { db1 with submissions := db1.submissions ++ [submission],
                   next_id := db1.next_id + 1 }
      (db2.record
        { contract_id := contract.id, event_type := .WORK_SUBMITTED,
          old_status := some .IN_PROGRESS, new_status := .SUBMITTED,
          actor := (Py.orStr (Py.orStr worker_wallet contract.worker_wallet)
            (some "UNKNOWN")).getD "UNKNOWN",
          metadata := .workSubmitted submission.id }, none)

/-- `EscrowService.start_verification`: guard `auto_verify`, move to
VERIFYING, record VERIFICATION_STARTED. -/
def start_verification (db : DB V) (cid : Nat) : DB V × Option SvcError :=
  match db.getContract cid with
  | none => (db, some (.contractNotFound cid))
  | some contract =>
    match fire contract.status .auto_verify with
    | .error _ => (db, some (.invalidStateTransition contract.status .auto_verify))
    | .ok _ =>
      let c1 := { contract with status := Status.VERIFYING }
      ((db.putContract c1).record
        { contract_id := contract.id, event_type := .VERIFICATION_STARTED,
          old_status := some .SUBMITTED, new_status := .VERIFYING,
          actor := "SYSTEM", metadata := .empty }, none)

/-- `EscrowService.record_verification_passed`: guard
`verification_passed`, move to COMPLETED, mark the submission valid when
it exists, record VERIFICATION_PASSED. -/
def record_verification_passed (db : DB V) (cid : Nat) (sid : Nat) (vr : V) :
    DB V × Option SvcError :=
  match db.getContract cid with
  | none => (db, some (.contractNotFound cid))
  | some contract =>
    match fire contract.status .verification_passed with
    | .error _ => (db, some (.invalidStateTransition contract.status .verification_passed))
    | .ok _ =>
      let c1 := { contract with status := Status.COMPLETED }
      let db1 := (db.putContract c1).updateSubmission sid true vr
      (db1.record
        { contract_id := contract.id, event_type := .VERIFICATION_PASSED,
          old_status := some .VERIFYING, new_status := .COMPLETED,
          actor := "SYSTEM", metadata := .passedResult vr }, none)

/-- `EscrowService.record_verification_failed`: mark the submission
invalid when it exists, increment the retry counter, and only then
branch on the post-increment value: at or past `max_retries` fire
`max_retries_exceeded` into FAILED, otherwise fire
`verification_failed_retry` back into IN_PROGRESS; both events carry the
post-increment retry count in their metadata. The mutation order (flush
of the submission update and the increment before the guard) mirrors the
source. -/
def record_verification_failed (db : DB V) (cid : Nat) (sid : Nat) (vr : V) :
    DB V × Option SvcError :=
  match db.getContract cid with
  | none => (db, some (.contractNotFound cid))
  | some contract =>
    let db1 := db.updateSubmission sid false vr
    let c1 := { contract with retry_count := contract.retry_count + 1 }
    let db2 := db1.putContract c1
    if c1.retry_count ≥ c1.max_retries then
      match fire c1.status .max_retries_exceeded with
      | .error _ => (db2, some (.invalidStateTransition c1.status .max_retries_exceeded))
      | .ok _ =>
        let c2 := { c1 with status := Status.FAILED }
        ((db2.putContract c2).record
          { contract_id := contract.id, event_type := .MAX_RETRIES_EXCEEDED,
            old_status := some .VERIFYING, new_status := .FAILED,
            actor := "SYSTEM", metadata := .retryInfo c1.retry_count vr }, none)
    else
      match fire c1.status .verification_failed_retry with
      | .error _ => (db2, some (.invalidStateTransition c1.status .verification_failed_retry))
      | .ok _ =>
        let c2 := { c1 with status := Status.IN_PROGRESS }
        ((db2.putContract c2).record
          { contract_id := contract.id, event_type := .VERIFICATION_FAILED,
            old_status := some .VERIFYING, new_status := .IN_PROGRESS,
            actor := "SYSTEM", metadata := .retryInfo c1.retry_count vr }, none)

/-- `EscrowService.raise_dispute`: guard `buyer_disputes` (legal from
FUNDED or IN_PROGRESS), move to DISPUTED, record DISPUTE_RAISED with the
dynamic old status. -/
def raise_dispute (db : DB V) (cid : Nat) (reason : String) (raised_by : String) :
    DB V × Option SvcError :=
  match db.getContract cid with
  | none => (db, some (.contractNotFound cid))
  | some contract =>
    match fire contract.status .buyer_disputes with
    | .error _ => (db, some (.invalidStateTransition contract.status .buyer_disputes))
    | .ok _ =>
      let c1 := { contract with status := Status.DISPUTED }
      ((db.putContract c1).record
        { contract_id := contract.id, event_type := .DISPUTE_RAISED,
          old_status := some contract.status, new_status := .DISPUTED,
          actor := raised_by, metadata := .disputeReason reason }, none)

/-- One public mutating operation of the escrow service. -/
inductive Op (V : Type)
  | create (buyer_wallet : String) (amount_usdc : ℚ) (description : String)
      (max_retries : Nat)
  | fund (contract_id : Nat) (tx_hash : String) (escrow_wallet : String)
  | accept (contract_id : Nat) (worker_wallet : String)
  | submit (contract_id : Nat) (payload : String) (worker_wallet : Option String)
  | startVerification (contract_id : Nat)
  | recordPassed (contract_id : Nat) (submission_id : Nat) (result : V)
  | recordFailed (contract_id : Nat) (submission_id : Nat) (result : V)
  | dispute (contract_id : Nat) (reason : String) (raised_by : String)

/-- Run one operation against the session: the returned state is the
flushed (not yet committed) state, together with the raised error if
any. -/
def step : Op V → DB V → DB V × Option SvcError
  | .create b a d m, db => create_contract db b a d m
  | .fund cid t w, db => fund_contract db cid t w
  | .accept cid w, db => accept_contract db cid w
  | .submit cid p w, db => submit_work db cid p w
  | .startVerification cid, db => start_verification db cid
  | .recordPassed cid sid vr, db => record_verification_passed db cid sid vr
  | .recordFailed cid sid vr, db => record_verification_failed db cid sid vr
  | .dispute cid r b, db => raise_dispute db cid r b

/-- Unit of work around one service operation, modelled from
`get_async_session` (engine.py): the session is committed on success and
rolled back (all flushed writes discarded) when the operation raises. -/
def runOp (op : Op V) (db : DB V) : DB V :=
  match step op db with
  | (db1, none) => db1
  | (_, some _) => db

/-- A sequence of unit-of-work operations. -/
def runOps (ops : List (Op V)) (db : DB V) : DB V :=
  ops.foldl (fun d op => runOp op d) db

/-- The empty store. -/
def DB.empty (V : Type) : DB V :=
  { contracts := [], submissions := [], events := [], next_id := 0 }

/-- The state-machine event each operation fires, computed from the
pre-state (`record_verification_failed` chooses by the post-increment
retry count); `none` for contract creation, which fires no event. -/
def firedEvent : Op V → DB V → Option Event
  | .create _ _ _ _, _ => none
  | .fund _ _ _, _ => some .on_chain_confirmed
  | .accept _ _, _ => some .worker_accepts
  | .submit _ _ _, _ => some .worker_submits
  | .startVerification _, _ => some .auto_verify
  | .recordPassed _ _ _, _ => some .verification_passed
  | .recordFailed cid _ _, db =>
    match db.getContract cid with
    | some c =>
      if c.retry_count + 1 ≥ c.max_retries then some .max_retries_exceeded
      else some .verification_failed_retry
    | none => none
  | .dispute _ _ _, _ => some .buyer_disputes

/-- Contract targeted by an operation; `none` for creation. -/
def opTarget : Op V → Option Nat
  | .create _ _ _ _ => none
  | .fund cid _ _ => some cid
  | .accept cid _ => some cid
  | .submit cid _ _ => some cid
  | .startVerification cid => some cid
  | .recordPassed cid _ _ => some cid
  | .recordFailed cid _ _ => some cid
  | .dispute cid _ _ => some cid

/-- The canonical audit event type for each state-machine event (spec
section 4.1). -/
def canonicalEventType : Event → EventType
  | .on_chain_confirmed => .CONTRACT_FUNDED
  | .timeout_expired => .CONTRACT_EXPIRED
  | .worker_accepts => .WORKER_ASSIGNED
  | .worker_submits => .WORK_SUBMITTED
  | .auto_verify => .VERIFICATION_STARTED
  | .verification_passed => .VERIFICATION_PASSED
  | .verification_failed_retry => .VERIFICATION_FAILED
  | .max_retries_exceeded => .MAX_RETRIES_EXCEEDED
  | .buyer_disputes => .DISPUTE_RAISED
  | .dispute_resolved_for_worker => .DISPUTE_RESOLVED_WORKER
  | .dispute_resolved_for_buyer => .DISPUTE_RESOLVED_BUYER

/-- Adjacent audit events chain: the later event's old status is the
earlier event's new status. -/
def chainRel (a b : EventRec V) : Prop := b.old_status = some a.new_status

/-! ### Verification service (services/verification_service.py) -/

/-- The shape of `VerificationResult.to_dict()` as stored by the
verification service (the free-form `logs` map is omitted; no modelled
operation reads it). -/
structure StoredResult where
  is_valid : Bool
  score : Option ℚ
  details : String
  error : Option String
  deriving DecidableEq

/-- The synthetic result recorded when a contract under verification has
no submissions. -/
def noSubmissionsResult : StoredResult :=
  { is_valid := false, score := none,
    details := "No submissions found for this contract.",
    error := some "NO_SUBMISSIONS" }

/-- `VerificationService.verify_latest_submission`, running against one
session (no intermediate commit): transition to VERIFYING, fetch the
newest submission, and either record the synthetic NO_SUBMISSIONS
failure under a freshly generated placeholder submission id (`uuid4()`
is modelled as the fresh identifier `next_id`), or dispatch to the
verifier (factory and strategy abstracted as `runVerifier` over the
submission payload) and record the pass or failure. Returns the flushed
state, the raised error if any, and the verifier result if reached. -/
def verify_latest_submission (db : DB StoredResult) (cid : Nat)
    (runVerifier : String → StoredResult) :
    DB StoredResult × Option SvcError × Option StoredResult :=
  match start_verification db cid with
  | (db1, some e) => (db1, some e, none)
  | (db1, none) =>
    match submissionsFor db1 cid with
    | [] =>
      let placeholder := db1.next_id
      match record_verification_failed db1 cid placeholder noSubmissionsResult with
      | (db2, none) => (db2, none, some noSubmissionsResult)
      | (db2, some e) => (db2, some e, none)
    | latest :: _ =>
      let result := runVerifier latest.payload
      if result.is_valid then
        match record_verification_passed db1 cid latest.id result with
        | (db2, none) => (db2, none, some result)
        | (db2, some e) => (db2, some e, none)
      else
        match record_verification_failed db1 cid latest.id result with
        | (db2, none) => (db2, none, some result)
        | (db2, some e) => (db2, some e, none)

/-- Shape of a successful contract creation: one new CREATED contract
under a fresh identifier, and exactly one CONTRACT_CREATED event with
null old status. -/
def CreateShape (db db' : DB V) : Prop :=
  ∃ cNew ev,
    db'.contracts = db.contracts ++ [cNew]
    ∧ db'.submissions = db.submissions
    ∧ db'.events = db.events ++ [ev]
    ∧ db'.next_id = db.next_id + 1
    ∧ cNew.id = db.next_id
    ∧ cNew.status = .CREATED
    ∧ ev.contract_id = db.next_id
    ∧ ev.event_type = .CONTRACT_CREATED
    ∧ ev.old_status = none
    ∧ ev.new_status = .CREATED

/-- Shape of a successful status-changing operation on contract `cid`:
exactly one event appended, whose old status is the pre-call status,
whose new status is the post-call status, and whose type is the
canonical type of the fired state-machine event; all other contracts,
and the set of contract identifiers, are untouched. -/
def UpdateShape (op : Op V) (db db' : DB V) (cid : Nat) : Prop :=
  ∃ c c' ev,
    db.getContract cid = some c
    ∧ db'.getContract cid = some c'
    ∧ db'.events = db.events ++ [ev]
    ∧ ev.contract_id = cid
    ∧ ev.old_status = some c.status
    ∧ ev.new_status = c'.status
    ∧ ¬c.status = c'.status
    ∧ (∃ fe, firedEvent op db = some fe ∧ ev.event_type = canonicalEventType fe)
    ∧ (∀ x, ¬x = cid → db'.getContract x = db.getContract x)
    ∧ db'.contracts.map Contract.id = db.contracts.map Contract.id
    ∧ db.next_id ≤ db'.next_id

/-- Inductive invariant of the store under unit-of-work operations:
contract identifiers are below the allocation counter, every event
belongs to a stored contract, each contract's event log is chained
(consecutive old/new statuses agree), and its last event's new status is
the contract's current status. -/
structure Inv (db : DB V) : Prop where
  idLt : ∀ c ∈ db.contracts, c.id < db.next_id
  owned : ∀ ev ∈ db.events, ∃ c, c ∈ db.contracts ∧ c.id = ev.contract_id
  chain : ∀ cid, List.Chain' chainRel (eventsFor db cid)
  lastMatch : ∀ cid c, db.getContract cid = some c →
    ((eventsFor db cid).getLast?).map (fun e => e.new_status) = some c.status

/-! ### Concrete fixtures used by instantiations -/

/-- A contract row with the given status and retry bounds. -/
def soloContract (st : Status) (retry maxR : Nat) : Contract :=
  { id := 0, buyer_wallet := "0xB", worker_wallet := some "0xW",
    amount_usdc := 100, escrow_wallet_address := none,
    funding_tx_hash := none, settlement_tx_hash := none,
    status := st, description := "demo task",
    max_retries := maxR, retry_count := retry }

/-- A store holding exactly one contract and nothing else. -/
def soloDB (V : Type) (st : Status) (retry maxR : Nat) : DB V :=
  { contracts := [soloContract st retry maxR], submissions := [],
    events := [], next_id := 1 }

/-- Scenario: a contract with `max_retries = 2` whose verifier rejects
everything; each bad submission is submitted and then verified
(transition to VERIFYING, then record the failure against the new
submission row, ids 1 and 2). -/
def s5Ops : List (Op Unit) :=
  [.create "0xB" 100 "print hello world" 2,
   .fund 0 "0xTX" "0xESC",
   .accept 0 "0xW",
   .submit 0 "bad one" (some "0xW"),
   .startVerification 0,
   .recordFailed 0 1 (),
   .submit 0 "bad two" (some "0xW"),
   .startVerification 0,
   .recordFailed 0 2 ()]

/-- The store after the two failed rounds of the scenario. -/
def s5Final : DB Unit := runOps s5Ops (DB.empty Unit)

/-- A sample validation error used by concrete instantiations. -/
def sampleVErr : VError :=
  { path := [.key "age"], message := "required property missing",
    schema_path := [.key "required"] }

/-! ## Theorems -/

theorem mkMachine_ok_iff (v : String) :
    (∃ st, mkMachine v = .ok st) ↔ v ∈ allStatuses.map Status.value := by
  constructor
  · rintro ⟨st, hst⟩
    unfold mkMachine at hst
    cases hf : allStatuses.find? (fun x => x.value == v) with
    | none => rw [hf] at hst; exact absurd hst (by simp)
    | some st' =>
      have hval := List.find?_some hf
      have hmem := List.mem_of_find?_eq_some hf
      exact List.mem_map.mpr ⟨st', hmem, by simpa using hval⟩
  · intro h
    obtain ⟨st, hmem, hval⟩ := List.mem_map.mp h
    unfold mkMachine
    cases hf : allStatuses.find? (fun x => x.value == v) with
    | some st' => exact ⟨st', rfl⟩
    | none =>
      have := List.find?_eq_none.mp hf st hmem
      simp [hval] at this

theorem mkMachine_unknown (v : String) (h : v ∉ allStatuses.map Status.value) :
    mkMachine v = .error (.unknownState v) := by
  unfold mkMachine
  cases hf : allStatuses.find? (fun x => x.value == v) with
  | some st =>
    have hval := List.find?_some hf
    have hmem := List.mem_of_find?_eq_some hf
    exact absurd (List.mem_map.mpr ⟨st, hmem, by simpa using hval⟩) h
  | none => rfl

/-- C1: the state machine realizes exactly the transition table of spec
section 4.1: a declared event moves to exactly the listed target; an event
not listed for the current state fails with an illegal-transition error
carrying the current state and the attempted event; construction succeeds
precisely on the eight status values and fails with an unknown-state error
on every other string; and the terminal states COMPLETED and FAILED have
no outgoing transitions. -/
theorem C1_state_machine_realizes_spec_table :
    (∀ s e t, transition s e = some t ↔ (s, e, t) ∈ specTable)
    ∧ (∀ s e t, (s, e, t) ∈ specTable → fire s e = .ok t)
    ∧ (∀ s e, (∀ t, (s, e, t) ∉ specTable) →
        fire s e = .error (.illegalTransition s e))
    ∧ (∀ v : String, (∃ st, mkMachine v = .ok st) ↔
        v ∈ allStatuses.map Status.value)
    ∧ (∀ v : String, v ∉ allStatuses.map Status.value →
        mkMachine v = .error (.unknownState v))
    ∧ allowedEvents .COMPLETED = [] ∧ allowedEvents .FAILED = [] := by
  refine ⟨by decide, by decide, by decide, mkMachine_ok_iff, mkMachine_unknown,
    by decide, by decide⟩

/-- Concrete instantiation of C1: the illegal transition CREATED +
verification_passed is rejected with the expected error, and construction
from the string BOGUS fails. -/
theorem C1_state_machine_witness :
    fire .CREATED .verification_passed
      = .error (.illegalTransition .CREATED .verification_passed)
    ∧ mkMachine "BOGUS" = .error (.unknownState "BOGUS") :=
  ⟨C1_state_machine_realizes_spec_table.2.2.1 .CREATED .verification_passed
      (by decide),
   C1_state_machine_realizes_spec_table.2.2.2.2.1 "BOGUS" (by decide)⟩

theorem optGetD_getLast?_cons {α : Type} (a : α) (l : List α) (b c : α) :
    ((a :: l).getLast?).getD b = ((a :: l).getLast?).getD c := by
  induction l generalizing a with
  | nil => rfl
  | cons y ys ih => rw [List.getLast?_cons_cons]; exact ih y

theorem foldl_keepLast {α β : Type} (p : α → Bool) (f : α → β) (lines : List α)
    (b : β) :
    lines.foldl (fun v l => if p l then f l else v) b
      = (((lines.filter p).map f).getLast?).getD b := by
  induction lines generalizing b with
  | nil => rfl
  | cons x xs ih =>
    rw [List.foldl_cons]
    by_cases h : p x
    · rw [if_pos h, ih, List.filter_cons_of_pos h, List.map_cons,
        optGetD_getLast?_cons (f x) ((xs.filter p).map f) b (f x)]
      cases hl : (xs.filter p).map f with
      | nil => rfl
      | cons a as => rw [List.getLast?_cons_cons]
    · rw [if_neg h, ih, List.filter_cons_of_neg h]

/-- C6 counterexample: the response below contains the exact line
`VERDICT: TRUE`, yet the parsed verdict is false, because the later
`VERDICT: FALSE` line overwrites it. -/
theorem C6_semantic_parse_counterexample :
    "VERDICT: TRUE" ∈ Py.splitLines "VERDICT: TRUE\nVERDICT: FALSE"
    ∧ isVerdictLine "VERDICT: TRUE" = true
    ∧ verdictLineTrue "VERDICT: TRUE" = true
    ∧ parseVerdict "VERDICT: TRUE\nVERDICT: FALSE" = false := by
  exact ⟨by decide, by decide, by decide, by decide⟩

/-- C6 amended: the parsed verdict is decided by the last `VERDICT:` line
of the response — true exactly when that line's value (case-insensitive,
trimmed) equals TRUE; in particular a response with no `VERDICT:` line,
or whose last `VERDICT:` line carries any other value, parses to false. -/
theorem C6_semantic_parse_amended (response : String) :
    parseVerdict response
      = ((((Py.splitLines response).filter isVerdictLine).map
            verdictLineTrue).getLast?).getD false :=
  foldl_keepLast isVerdictLine verdictLineTrue (Py.splitLines response) false

/-- C7 counterexample: with the sandbox key configured, a configured
`expected_output` of a single space (present on the descriptor), exit
code 0 and stdout `x`, the strategy returns valid with score 1.0 even
though the configured value is not a substring of the trimmed stdout —
the source strips `expected_output` first and treats the whitespace-only
value as absent. -/
theorem C7_code_execution_counterexample :
    (codeExecVerify (some "key") (some " ") 10 (.finished "x" "" 0)).is_valid = true
    ∧ (codeExecVerify (some "key") (some " ") 10 (.finished "x" "" 0)).score = some 1
    ∧ Py.containsSub " " (Py.strip "x") = false := by
  exact ⟨by decide, by decide, by decide⟩

/-- C7 amended: for sandbox run outcomes with the key configured: a
non-zero exit code yields invalid; with exit code 0 the configured
`expected_output` is first trimmed — when the trimmed value is nonempty
the result is valid with score 1.0 exactly when that trimmed value is a
substring of the trimmed stdout, and when the trimmed value is empty (the
field absent, empty, or whitespace-only) the result is valid with score
1.0 unconditionally. -/
theorem C7_code_execution_amended (apiKey expectedOutputCfg : Option String)
    (timeout : Int) (stdout stderr : String) (exitCode : Int)
    (hkey : ¬apiKey.getD "" = "") :
    (exitCode ≠ 0 →
      (codeExecVerify apiKey expectedOutputCfg timeout
        (.finished stdout stderr exitCode)).is_valid = false)
    ∧ (exitCode = 0 → ¬Py.strip (expectedOutputCfg.getD "") = "" →
      (((codeExecVerify apiKey expectedOutputCfg timeout
          (.finished stdout stderr exitCode)).is_valid = true
        ∧ (codeExecVerify apiKey expectedOutputCfg timeout
            (.finished stdout stderr exitCode)).score = some 1)
        ↔ Py.containsSub (Py.strip (expectedOutputCfg.getD ""))
            (Py.strip stdout) = true))
    ∧ (exitCode = 0 → Py.strip (expectedOutputCfg.getD "") = "" →
      (codeExecVerify apiKey expectedOutputCfg timeout
          (.finished stdout stderr exitCode)).is_valid = true
      ∧ (codeExecVerify apiKey expectedOutputCfg timeout
          (.finished stdout stderr exitCode)).score = some 1) := by
  refine ⟨?_, ?_, ?_⟩
  · intro h0
    simp [codeExecVerify, hkey, h0]
  · intro h0 hne
    subst h0
    by_cases hc : Py.containsSub (Py.strip (expectedOutputCfg.getD ""))
        (Py.strip stdout) = true
    · simp [codeExecVerify, hkey, hne, hc]
    · simp [codeExecVerify, hkey, hne, hc]
  · intro h0 he
    subst h0
    simp [codeExecVerify, hkey, he]

/-- Concrete instantiation of the amended C7: stdout `55` against
expected output `55` passes with score 1.0. -/
theorem C7_code_execution_witness :
    ((0 : Int) ≠ 0 →
      (codeExecVerify (some "key") (some "55") 10
        (.finished "55" "" 0)).is_valid = false)
    ∧ ((0 : Int) = 0 → ¬Py.strip ((some "55" : Option String).getD "") = "" →
      (((codeExecVerify (some "key") (some "55") 10
          (.finished "55" "" 0)).is_valid = true
        ∧ (codeExecVerify (some "key") (some "55") 10
            (.finished "55" "" 0)).score = some 1)
        ↔ Py.containsSub (Py.strip ((some "55" : Option String).getD ""))
            (Py.strip "55") = true))
    ∧ ((0 : Int) = 0 → Py.strip ((some "55" : Option String).getD "") = "" →
      (codeExecVerify (some "key") (some "55") 10
          (.finished "55" "" 0)).is_valid = true
      ∧ (codeExecVerify (some "key") (some "55") 10
          (.finished "55" "" 0)).score = some 1) :=
  C7_code_execution_amended (some "key") (some "55") 10 "55" "" 0 (by decide)

/-- C9 counterexample: the code-execution strategy reports a missing
sandbox key as `MISSING_E2B_API_KEY`, which is not among the spec's
eight subtypes (the spec names `MISSING_SANDBOX_KEY`). -/
theorem C9_error_codes_counterexample :
    (codeExecVerify none none 10 (.finished "" "" 0)).error
        = some "MISSING_E2B_API_KEY"
    ∧ (codeExecVerify none none 10 (.finished "" "" 0)).is_valid = false
    ∧ "MISSING_E2B_API_KEY" ∉ specErrorCodes := by
  exact ⟨by decide, by decide, by decide⟩

/-- C9 amended: every non-null error code emitted by the three verifier
strategies comes with is_valid = false and lies in the nine-code set
actually used by the implementation: the spec's taxonomy with
`MISSING_SANDBOX_KEY` replaced by `MISSING_E2B_API_KEY` and extended by
the schema strategy's catch-all `SCHEMA_VERIFIER_ERROR`. -/
theorem C9_error_codes_amended :
    (∀ (apiKey expectedCfg : Option String) (timeout : Int)
       (outcome : SandboxOutcome) (e : String),
       (codeExecVerify apiKey expectedCfg timeout outcome).error = some e →
       e ∈ implErrorCodes
       ∧ (codeExecVerify apiKey expectedCfg timeout outcome).is_valid = false)
    ∧ (∀ (criteria model : String) (llm : Except String String)
       (ps : String → ℚ) (pr : String → String) (e : String),
       (semanticVerify criteria model llm ps pr).error = some e →
       e ∈ implErrorCodes
       ∧ (semanticVerify criteria model llm ps pr).is_valid = false)
    ∧ (∀ {S J : Type} (schema : Option S) (payload : String)
       (parse : String → Except String J) (validate : S → J → ValidationOutcome)
       (e : String),
       (schemaVerify schema payload parse validate).error = some e →
       e ∈ implErrorCodes
       ∧ (schemaVerify schema payload parse validate).is_valid = false) := by
  refine ⟨?_, ?_, ?_⟩
  · intro apiKey expectedCfg timeout outcome e h
    by_cases hk : (apiKey.getD "") = ""
    · simp [codeExecVerify, hk] at h ⊢
      subst h; decide
    · cases outcome with
      | finished stdout stderr exitCode =>
        by_cases h0 : exitCode ≠ 0
        · simp [codeExecVerify, hk, h0] at h
        · by_cases he : ¬Py.strip (expectedCfg.getD "") = ""
          · by_cases hc : Py.containsSub (Py.strip (expectedCfg.getD ""))
                (Py.strip stdout) = true
            · simp [codeExecVerify, hk, h0, he, hc] at h
            · simp [codeExecVerify, hk, h0, he, hc] at h
          · simp at he
            simp [codeExecVerify, hk, h0, he] at h
      | timedOut =>
        simp [codeExecVerify, hk] at h ⊢
        subst h; decide
      | raised exc =>
        simp [codeExecVerify, hk] at h ⊢
        subst h; decide
  · intro criteria model llm ps pr e h
    by_cases hcr : criteria = ""
    · simp [semanticVerify, hcr] at h ⊢
      subst h; decide
    · cases llm with
      | ok content => simp [semanticVerify, hcr] at h
      | error exc =>
        simp [semanticVerify, hcr] at h ⊢
        subst h; decide
  · intro S J schema payload parse validate e h
    cases schema with
    | none =>
      simp [schemaVerify] at h ⊢
      subst h; decide
    | some s =>
      cases hp : parse payload with
      | error exc =>
        simp [schemaVerify, hp] at h ⊢
        subst h; decide
      | ok v =>
        cases hv : validate s v with
        | errs raw =>
          by_cases hemp : (raw.insertionSort vErrLe).isEmpty
          · simp [schemaVerify, hp, hv, hemp] at h
          · simp [schemaVerify, hp, hv, hemp] at h
        | schemaError exc =>
          simp [schemaVerify, hp, hv] at h ⊢
          subst h; decide
        | otherExc exc =>
          simp [schemaVerify, hp, hv] at h ⊢
          subst h; decide

/-- Concrete instantiation of the amended C9: a sandbox timeout is
recorded as EXECUTION_TIMEOUT, which is in the implementation's code
set, with is_valid false. -/
theorem C9_error_codes_witness :
    "EXECUTION_TIMEOUT" ∈ implErrorCodes
    ∧ (codeExecVerify (some "key") none 10 .timedOut).is_valid = false :=
  C9_error_codes_amended.1 (some "key") none 10 .timedOut "EXECUTION_TIMEOUT"
    (by decide)

theorem PathElem.cmp_swap (a b : PathElem) : a.cmp b = (b.cmp a).swap := by
  cases a with
  | idx n =>
    cases b with
    | idx m =>
      rcases lt_trichotomy n m with h | h | h
      · simp [PathElem.cmp, h, lt_asymm h, Ordering.swap]
      · subst h; simp [PathElem.cmp, lt_irrefl, Ordering.swap]
      · simp [PathElem.cmp, h, lt_asymm h, Ordering.swap]
    | key s => rfl
  | key s =>
    cases b with
    | idx m => rfl
    | key t =>
      rcases lt_trichotomy s t with h | h | h
      · simp [PathElem.cmp, h, lt_asymm h, Ordering.swap]
      · subst h; simp [PathElem.cmp, lt_irrefl, Ordering.swap]
      · simp [PathElem.cmp, h, lt_asymm h, Ordering.swap]

theorem PathElem.cmp_idx_lt {n m : Nat} :
    PathElem.cmp (.idx n) (.idx m) = .lt ↔ n < m := by
  by_cases h : n < m
  · simp [PathElem.cmp, h]
  · by_cases h2 : m < n <;> simp [PathElem.cmp, h, h2]

theorem PathElem.cmp_key_lt {s t : String} :
    PathElem.cmp (.key s) (.key t) = .lt ↔ s < t := by
  by_cases h : s < t
  · simp [PathElem.cmp, h]
  · by_cases h2 : t < s <;> simp [PathElem.cmp, h, h2]

theorem PathElem.cmp_eq_eq : ∀ {a b : PathElem}, a.cmp b = .eq ↔ a = b := by
  intro a b
  cases a with
  | idx n =>
    cases b with
    | idx m =>
      constructor
      · intro h
        by_cases h1 : n < m
        · simp [PathElem.cmp, h1] at h
        · by_cases h2 : m < n
          · simp [PathElem.cmp, h1, h2] at h
          · have : n = m := le_antisymm (not_lt.mp h2) (not_lt.mp h1)
            simp [this]
      · intro h
        injection h with h1
        subst h1
        simp [PathElem.cmp, lt_irrefl]
    | key s => simp [PathElem.cmp]
  | key s =>
    cases b with
    | idx m => simp [PathElem.cmp]
    | key t =>
      constructor
      · intro h
        by_cases h1 : s < t
        · simp [PathElem.cmp, h1] at h
        · by_cases h2 : t < s
          · simp [PathElem.cmp, h1, h2] at h
          · have : s = t := le_antisymm (not_lt.mp h2) (not_lt.mp h1)
            simp [this]
      · intro h
        injection h with h1
        subst h1
        simp [PathElem.cmp, lt_irrefl]

theorem PathElem.cmp_lt_trans : ∀ {a b c : PathElem},
    a.cmp b = .lt → b.cmp c = .lt → a.cmp c = .lt := by
  intro a b c h1 h2
  cases a with
  | idx n =>
    cases b with
    | idx m =>
      cases c with
      | idx k =>
        exact PathElem.cmp_idx_lt.mpr
          (lt_trans (PathElem.cmp_idx_lt.mp h1) (PathElem.cmp_idx_lt.mp h2))
      | key t => rfl
    | key s =>
      cases c with
      | idx k => simp [PathElem.cmp] at h2
      | key t => rfl
  | key s =>
    cases b with
    | idx m => simp [PathElem.cmp] at h1
    | key u =>
      cases c with
      | idx k => simp [PathElem.cmp] at h2
      | key t =>
        exact PathElem.cmp_key_lt.mpr
          (lt_trans (PathElem.cmp_key_lt.mp h1) (PathElem.cmp_key_lt.mp h2))

theorem pathCmp_swap : ∀ (p q : List PathElem), pathCmp p q = (pathCmp q p).swap := by
  intro p
  induction p with
  | nil => intro q; cases q <;> rfl
  | cons a as ih =>
    intro q
    cases q with
    | nil => rfl
    | cons b bs =>
      simp only [pathCmp]
      rw [PathElem.cmp_swap a b]
      cases PathElem.cmp b a with
      | lt => rfl
      | eq => simpa [Ordering.swap] using ih bs
      | gt => rfl

theorem pathCmp_eq_eq : ∀ {p q : List PathElem}, pathCmp p q = .eq ↔ p = q := by
  intro p
  induction p with
  | nil => intro q; cases q <;> simp [pathCmp]
  | cons a as ih =>
    intro q
    cases q with
    | nil => simp [pathCmp]
    | cons b bs =>
      simp only [pathCmp]
      cases hab : PathElem.cmp a b with
      | eq =>
        have hab' : a = b := PathElem.cmp_eq_eq.mp hab
        subst hab'
        simp [ih]
      | lt =>
        constructor
        · intro h; nomatch h
        · intro h
          injection h with h1 h2
          subst h1
          rw [PathElem.cmp_eq_eq.mpr rfl] at hab
          nomatch hab
      | gt =>
        constructor
        · intro h; nomatch h
        · intro h
          injection h with h1 h2
          subst h1
          rw [PathElem.cmp_eq_eq.mpr rfl] at hab
          nomatch hab

theorem pathCmp_lt_trans : ∀ {p q r : List PathElem},
    pathCmp p q = .lt → pathCmp q r = .lt → pathCmp p r = .lt := by
  intro p
  induction p with
  | nil =>
    intro q r h1 h2
    cases q with
    | nil => nomatch h1
    | cons b bs =>
      cases r with
      | nil => nomatch h2
      | cons c cs => rfl
  | cons a as ih =>
    intro q r h1 h2
    cases q with
    | nil => nomatch h1
    | cons b bs =>
      cases r with
      | nil => nomatch h2
      | cons c cs =>
        simp only [pathCmp] at h1 h2 ⊢
        cases hab : PathElem.cmp a b with
        | gt => rw [hab] at h1; nomatch h1
        | lt =>
          rw [hab] at h1
          cases hbc : PathElem.cmp b c with
          | gt => rw [hbc] at h2; nomatch h2
          | lt => rw [PathElem.cmp_lt_trans hab hbc]
          | eq =>
            rw [← PathElem.cmp_eq_eq.mp hbc, hab]
        | eq =>
          rw [hab] at h1
          have hab' : a = b := PathElem.cmp_eq_eq.mp hab
          subst hab'
          cases hbc : PathElem.cmp a c with
          | gt => rw [hbc] at h2; nomatch h2
          | lt => rfl
          | eq =>
            rw [hbc] at h2
            exact ih h1 h2

theorem vErrLe_total (a b : VError) : vErrLe a b ∨ vErrLe b a := by
  unfold vErrLe
  by_cases h : pathCmp a.path b.path = .gt
  · right
    rw [pathCmp_swap b.path a.path, h]
    simp [Ordering.swap]
  · exact Or.inl h

theorem vErrLe_trans (a b c : VError) (h1 : vErrLe a b) (h2 : vErrLe b c) :
    vErrLe a c := by
  unfold vErrLe at h1 h2 ⊢
  cases hab : pathCmp a.path b.path with
  | gt => exact absurd hab h1
  | eq => rw [pathCmp_eq_eq.mp hab]; exact h2
  | lt =>
    cases hbc : pathCmp b.path c.path with
    | gt => exact absurd hbc h2
    | eq => rw [← pathCmp_eq_eq.mp hbc]; rw [hab]; simp
    | lt => rw [pathCmp_lt_trans hab hbc]; simp

theorem sorted_vErrLe_insertionSort (l : List VError) :
    List.Sorted vErrLe (l.insertionSort vErrLe) :=
  @List.sorted_insertionSort VError vErrLe _ ⟨vErrLe_total⟩
    ⟨fun a b c => vErrLe_trans a b c⟩ l

/-- C8: for every provided schema and payload: a payload that parses and
validates yields is_valid true with score 1.0; one that parses but fails
validation yields is_valid false, a details string counting the errors,
and a nonempty validation_errors log that is a permutation of the raw
errors sorted by path; a payload that is not valid JSON yields the
INVALID_JSON error with a 500-character-bounded payload preview in the
logs. -/
theorem C8_schema_strategy {S J : Type} (schema : S) (payload : String)
    (parseJson : String → Except String J)
    (validate : S → J → ValidationOutcome) :
    (∀ v, parseJson payload = .ok v → validate schema v = .errs [] →
      (schemaVerify (some schema) payload parseJson validate).is_valid = true
      ∧ (schemaVerify (some schema) payload parseJson validate).score = some 1)
    ∧ (∀ v raw, parseJson payload = .ok v → validate schema v = .errs raw →
      raw ≠ [] →
      (schemaVerify (some schema) payload parseJson validate).is_valid = false
      ∧ (schemaVerify (some schema) payload parseJson validate).details
          = "Schema validation failed with " ++ toString raw.length
            ++ " error(s)."
      ∧ ∃ entries,
          (schemaVerify (some schema) payload parseJson validate).logs
            = some (.invalid entries schema)
          ∧ entries ≠ [] ∧ entries.Perm raw ∧ entries.Sorted vErrLe)
    ∧ (∀ exc, parseJson payload = .error exc →
      (schemaVerify (some schema) payload parseJson validate).error
          = some "INVALID_JSON"
      ∧ (schemaVerify (some schema) payload parseJson validate).is_valid = false
      ∧ (schemaVerify (some schema) payload parseJson validate).logs
          = some (.parseFailed (Py.take 500 payload))
      ∧ (Py.take 500 payload).length ≤ 500) := by
  refine ⟨?_, ?_, ?_⟩
  · intro v hp hv
    simp [schemaVerify, hp, hv]
  · intro v raw hp hv hraw
    have hperm : (raw.insertionSort vErrLe).Perm raw :=
      List.perm_insertionSort vErrLe raw
    have hne : ¬(raw.insertionSort vErrLe).isEmpty := by
      cases hq : raw.insertionSort vErrLe with
      | nil =>
        exact absurd (List.Perm.nil_eq (hq ▸ hperm)).symm hraw
      | cons x xs => simp
    refine ⟨?_, ?_, ?_⟩
    · simp [schemaVerify, hp, hv, hne]
    · simp [schemaVerify, hp, hv, hne, hperm.length_eq]
    · refine ⟨raw.insertionSort vErrLe, ?_, ?_, hperm,
        sorted_vErrLe_insertionSort raw⟩
      · simp [schemaVerify, hp, hv, hne]
      · intro hq
        rw [hq] at hne
        exact hne rfl
  · intro exc hp
    refine ⟨by simp [schemaVerify, hp], by simp [schemaVerify, hp],
      by simp [schemaVerify, hp], ?_⟩
    show (payload.data.take 500).asString.length ≤ 500
    have : (payload.data.take 500).asString.length = (payload.data.take 500).length := rfl
    rw [this, List.length_take]
    exact min_le_left _ _

/-- Concrete instantiation of C8: with one raw validation error, the
strategy reports one error with a sorted, nonempty log. -/
theorem C8_schema_strategy_witness :
    (schemaVerify (some ()) "payload text" (fun _ => Except.ok ())
        (fun _ _ => .errs [sampleVErr])).is_valid = false
    ∧ (schemaVerify (some ()) "payload text" (fun _ => Except.ok ())
        (fun _ _ => .errs [sampleVErr])).details
        = "Schema validation failed with " ++ toString [sampleVErr].length
          ++ " error(s)."
    ∧ ∃ entries,
        (schemaVerify (some ()) "payload text" (fun _ => Except.ok ())
          (fun _ _ => .errs [sampleVErr])).logs
          = some (.invalid entries ())
        ∧ entries ≠ [] ∧ entries.Perm [sampleVErr] ∧ entries.Sorted vErrLe :=
  (C8_schema_strategy () "payload text" (fun _ => Except.ok ())
    (fun _ _ => .errs [sampleVErr])).2.1 () [sampleVErr] rfl rfl (by simp)

/-! ### Store lemmas -/

theorem find?_replace {l : List Contract} {c : Contract} {cid : Nat}
    (c1 : Contract) (h : l.find? (fun x => x.id == cid) = some c)
    (hid : c1.id = c.id) :
    (l.map (fun x => if x.id == c1.id then c1 else x)).find?
      (fun x => x.id == cid) = some c1 := by
  have hcid : (c.id == cid) = true := by
    have t := List.find?_some h
    exact t
  induction l with
  | nil => simp at h
  | cons y ys ih =>
    rw [List.map_cons]
    cases hy : (y.id == cid) with
    | true =>
      rw [List.find?_cons, hy] at h
      have hyc : y = c := Option.some.inj h
      subst hyc
      rw [if_pos (by rw [beq_iff_eq, hid])]
      rw [List.find?_cons,
        show (c1.id == cid) = true by rw [beq_iff_eq, hid]; exact beq_iff_eq.mp hcid]
    | false =>
      rw [List.find?_cons, hy] at h
      have hyne : ¬(y.id == c1.id) = true := by
        intro hcontra
        rw [beq_iff_eq] at hcontra
        rw [hcontra, hid] at hy
        rw [hcid] at hy
        exact Bool.noConfusion hy
      rw [if_neg hyne, List.find?_cons, hy]
      exact ih h

theorem find?_replace_ne {l : List Contract} (c1 : Contract) {x : Nat}
    (hx : ¬c1.id = x) :
    (l.map (fun y => if y.id == c1.id then c1 else y)).find?
      (fun y => y.id == x) = l.find? (fun y => y.id == x) := by
  induction l with
  | nil => rfl
  | cons y ys ih =>
    rw [List.map_cons]
    by_cases hy : (y.id == c1.id) = true
    · rw [if_pos hy]
      have hyx : (y.id == x) = false := by
        rw [beq_eq_false_iff_ne]
        intro hc
        exact hx (by rw [← beq_iff_eq.mp hy, hc])
      have hc1x : (c1.id == x) = false := by
        rw [beq_eq_false_iff_ne]
        exact hx
      rw [List.find?_cons, hc1x, List.find?_cons, hyx]
      exact ih
    · rw [if_neg hy]
      cases hyx : (y.id == x) with
      | true => rw [List.find?_cons, hyx, List.find?_cons, hyx]
      | false =>
        rw [List.find?_cons, hyx, List.find?_cons, hyx]
        exact ih

theorem getContract_put {db : DB V} {c : Contract} {cid : Nat} (c1 : Contract)
    (h : db.getContract cid = some c) (hid : c1.id = c.id) :
    (db.putContract c1).getContract cid = some c1 :=
  find?_replace c1 h hid

theorem getContract_put_ne {db : DB V} (c1 : Contract) {x : Nat}
    (hx : ¬c1.id = x) :
    (db.putContract c1).getContract x = db.getContract x :=
  find?_replace_ne c1 hx

theorem putContract_events (db : DB V) (c : Contract) :
    (db.putContract c).events = db.events := rfl

theorem putContract_submissions (db : DB V) (c : Contract) :
    (db.putContract c).submissions = db.submissions := rfl

theorem putContract_next_id (db : DB V) (c : Contract) :
    (db.putContract c).next_id = db.next_id := rfl

theorem record_contracts (db : DB V) (ev : EventRec V) :
    (db.record ev).contracts = db.contracts := rfl

theorem getContract_record (db : DB V) (ev : EventRec V) (cid : Nat) :
    (db.record ev).getContract cid = db.getContract cid := rfl

theorem updateSubmission_contracts (db : DB V) (sid : Nat) (b : Bool) (vr : V) :
    (db.updateSubmission sid b vr).contracts = db.contracts := by
  unfold DB.updateSubmission
  cases db.submissions.find? (fun s => s.id == sid) <;> rfl

theorem updateSubmission_events (db : DB V) (sid : Nat) (b : Bool) (vr : V) :
    (db.updateSubmission sid b vr).events = db.events := by
  unfold DB.updateSubmission
  cases db.submissions.find? (fun s => s.id == sid) <;> rfl

theorem updateSubmission_next_id (db : DB V) (sid : Nat) (b : Bool) (vr : V) :
    (db.updateSubmission sid b vr).next_id = db.next_id := by
  unfold DB.updateSubmission
  cases db.submissions.find? (fun s => s.id == sid) <;> rfl

theorem getContract_updateSubmission (db : DB V) (sid : Nat) (b : Bool) (vr : V)
    (cid : Nat) :
    (db.updateSubmission sid b vr).getContract cid = db.getContract cid := by
  unfold DB.getContract
  rw [updateSubmission_contracts]

theorem getContract_id {db : DB V} {cid : Nat} {c : Contract}
    (h : db.getContract cid = some c) : c.id = cid := by
  have t := List.find?_some h
  exact beq_iff_eq.mp t

theorem putContract_map_id (db : DB V) (c1 : Contract) :
    (db.putContract c1).contracts.map Contract.id
      = db.contracts.map Contract.id := by
  show (db.contracts.map fun x => if x.id == c1.id then c1 else x).map
      Contract.id = db.contracts.map Contract.id
  rw [List.map_map]
  apply List.map_congr_left
  intro x hx
  by_cases h : (x.id == c1.id) = true
  · simp only [Function.comp, if_pos h]
    exact (beq_iff_eq.mp h).symm
  · simp only [Function.comp, if_neg h]

theorem record_failed_ok {V : Type} (db : DB V) (cid sid : Nat)
    (vr : V) (c : Contract) (hc : db.getContract cid = some c)
    (hs : c.status = .VERIFYING) :
    ∃ db', record_verification_failed db cid sid vr = (db', none)
      ∧ (∃ c', db'.getContract cid = some c'
          ∧ c'.retry_count = c.retry_count + 1
          ∧ c'.status = (if c.retry_count + 1 < c.max_retries
              then Status.IN_PROGRESS else Status.FAILED))
      ∧ (∃ ev, db'.events = (db.updateSubmission sid false vr).events ++ [ev]
          ∧ (db.updateSubmission sid false vr).events = db.events
          ∧ ev.contract_id = cid
          ∧ ev.old_status = some .VERIFYING
          ∧ ev.metadata = .retryInfo (c.retry_count + 1) vr
          ∧ ev.event_type = (if c.retry_count + 1 < c.max_retries
              then EventType.VERIFICATION_FAILED else .MAX_RETRIES_EXCEEDED)
          ∧ ev.new_status = (if c.retry_count + 1 < c.max_retries
              then Status.IN_PROGRESS else Status.FAILED))
      ∧ db'.submissions = (db.updateSubmission sid false vr).submissions
      ∧ (∀ x, ¬x = cid → db'.getContract x = db.getContract x)
      ∧ db'.contracts.map Contract.id = db.contracts.map Contract.id
      ∧ db'.next_id = db.next_id := by
  have hid := getContract_id hc
  have hget1 : (db.updateSubmission sid false vr).getContract cid = some c := by
    rw [getContract_updateSubmission]; exact hc
  by_cases hlt : c.retry_count + 1 < c.max_retries
  · have hge : ¬c.retry_count + 1 ≥ c.max_retries := by omega
    have heq : record_verification_failed db cid sid vr
        = ((((db.updateSubmission sid false vr).putContract
              { c with retry_count := c.retry_count + 1 }).putContract
              { c with
                retry_count := c.retry_count + 1
                status := Status.IN_PROGRESS }).record
            { contract_id := c.id, event_type := .VERIFICATION_FAILED,
              old_status := some .VERIFYING, new_status := .IN_PROGRESS,
              actor := "SYSTEM", metadata := .retryInfo (c.retry_count + 1) vr },
           none) := by
      simp only [record_verification_failed, hc]
      rw [if_neg hge]
      rw [show fire ({ c with retry_count := c.retry_count + 1 } : Contract).status
            .verification_failed_retry = .ok Status.IN_PROGRESS by
          rw [show ({ c with retry_count := c.retry_count + 1 } : Contract).status
              = c.status from rfl, hs]
          rfl]
    refine ⟨_, heq, ⟨{ c with
        retry_count := c.retry_count + 1
        status := Status.IN_PROGRESS }, ?_, rfl, by rw [if_pos hlt]⟩, ?_, rfl,
      ?_, ?_, updateSubmission_next_id db sid false vr⟩
    · rw [getContract_record]
      exact getContract_put _ (getContract_put _ hget1 rfl) rfl
    · exact ⟨_, rfl, updateSubmission_events db sid false vr, hid, rfl, rfl,
        by rw [if_pos hlt], by rw [if_pos hlt]⟩
    · intro x hx
      rw [getContract_record, getContract_put_ne, getContract_put_ne,
        getContract_updateSubmission]
      · intro hh
        exact hx (hh.symm.trans hid)
      · intro hh
        exact hx (hh.symm.trans hid)
    · calc (((((db.updateSubmission sid false vr).putContract
              { c with retry_count := c.retry_count + 1 }).putContract
              { c with
                retry_count := c.retry_count + 1
                status := Status.IN_PROGRESS }).record
            { contract_id := c.id, event_type := .VERIFICATION_FAILED,
              old_status := some .VERIFYING, new_status := .IN_PROGRESS,
              actor := "SYSTEM",
              metadata := .retryInfo (c.retry_count + 1) vr }).contracts.map
            Contract.id)
          = (((db.updateSubmission sid false vr).putContract
              { c with retry_count := c.retry_count + 1 }).contracts.map
              Contract.id) := putContract_map_id _ _
        _ = ((db.updateSubmission sid false vr).contracts.map Contract.id) :=
          putContract_map_id _ _
        _ = db.contracts.map Contract.id := by rw [updateSubmission_contracts]
  · have hge : c.retry_count + 1 ≥ c.max_retries := by omega
    have heq : record_verification_failed db cid sid vr
        = ((((db.updateSubmission sid false vr).putContract
              { c with retry_count := c.retry_count + 1 }).putContract
              { c with
                retry_count := c.retry_count + 1
                status := Status.FAILED }).record
            { contract_id := c.id, event_type := .MAX_RETRIES_EXCEEDED,
              old_status := some .VERIFYING, new_status := .FAILED,
              actor := "SYSTEM", metadata := .retryInfo (c.retry_count + 1) vr },
           none) := by
      simp only [record_verification_failed, hc]
      rw [if_pos hge]
      rw [show fire ({ c with retry_count := c.retry_count + 1 } : Contract).status
            .max_retries_exceeded = .ok Status.FAILED by
          rw [show ({ c with retry_count := c.retry_count + 1 } : Contract).status
              = c.status from rfl, hs]
          rfl]
    refine ⟨_, heq, ⟨{ c with
        retry_count := c.retry_count + 1
        status := Status.FAILED }, ?_, rfl, by rw [if_neg hlt]⟩, ?_, rfl,
      ?_, ?_, updateSubmission_next_id db sid false vr⟩
    · rw [getContract_record]
      exact getContract_put _ (getContract_put _ hget1 rfl) rfl
    · exact ⟨_, rfl, updateSubmission_events db sid false vr, hid, rfl, rfl,
        by rw [if_neg hlt], by rw [if_neg hlt]⟩
    · intro x hx
      rw [getContract_record, getContract_put_ne, getContract_put_ne,
        getContract_updateSubmission]
      · intro hh
        exact hx (hh.symm.trans hid)
      · intro hh
        exact hx (hh.symm.trans hid)
    · calc (((((db.updateSubmission sid false vr).putContract
              { c with retry_count := c.retry_count + 1 }).putContract
              { c with
                retry_count := c.retry_count + 1
                status := Status.FAILED }).record
            { contract_id := c.id, event_type := .MAX_RETRIES_EXCEEDED,
              old_status := some .VERIFYING, new_status := .FAILED,
              actor := "SYSTEM",
              metadata := .retryInfo (c.retry_count + 1) vr }).contracts.map
            Contract.id)
          = (((db.updateSubmission sid false vr).putContract
              { c with retry_count := c.retry_count + 1 }).contracts.map
              Contract.id) := putContract_map_id _ _
        _ = ((db.updateSubmission sid false vr).contracts.map Contract.id) :=
          putContract_map_id _ _
        _ = db.contracts.map Contract.id := by rw [updateSubmission_contracts]

/-- C2: for every contract in VERIFYING, record_verification_failed
first increments retry_count, then fires verification_failed_retry into
IN_PROGRESS with a VERIFICATION_FAILED event when the post-increment
count is strictly below max_retries, and otherwise fires
max_retries_exceeded into FAILED with a MAX_RETRIES_EXCEEDED event; in
both cases the appended event's metadata carries the post-increment
retry count. -/
theorem C2_record_verification_failed {V : Type} (db : DB V) (cid sid : Nat)
    (vr : V) (c : Contract) (hc : db.getContract cid = some c)
    (hs : c.status = .VERIFYING) :
    ∃ db', record_verification_failed db cid sid vr = (db', none)
      ∧ (∃ c', db'.getContract cid = some c'
          ∧ c'.retry_count = c.retry_count + 1
          ∧ c'.status = (if c.retry_count + 1 < c.max_retries
              then Status.IN_PROGRESS else Status.FAILED))
      ∧ ∃ ev, db'.events = (db.updateSubmission sid false vr).events ++ [ev]
          ∧ (db.updateSubmission sid false vr).events = db.events
          ∧ ev.contract_id = cid
          ∧ ev.old_status = some .VERIFYING
          ∧ ev.metadata = .retryInfo (c.retry_count + 1) vr
          ∧ ev.event_type = (if c.retry_count + 1 < c.max_retries
              then EventType.VERIFICATION_FAILED else .MAX_RETRIES_EXCEEDED)
          ∧ ev.new_status = (if c.retry_count + 1 < c.max_retries
              then Status.IN_PROGRESS else Status.FAILED) := by
  obtain ⟨db', h1, h2, h3, _, _, _, _⟩ := record_failed_ok db cid sid vr c hc hs
  exact ⟨db', h1, h2, h3⟩

/-- Concrete instantiation of C2: a VERIFYING contract with retry 0 of
max 3 goes back to IN_PROGRESS with retry 1 and a VERIFICATION_FAILED
event carrying retry_count 1. -/
theorem C2_record_verification_failed_witness :
    ∃ db', record_verification_failed (soloDB Unit .VERIFYING 0 3) 0 5 ()
        = (db', none)
      ∧ (∃ c', db'.getContract 0 = some c'
          ∧ c'.retry_count = (soloContract .VERIFYING 0 3).retry_count + 1
          ∧ c'.status = (if (soloContract .VERIFYING 0 3).retry_count + 1
                < (soloContract .VERIFYING 0 3).max_retries
              then Status.IN_PROGRESS else Status.FAILED))
      ∧ ∃ ev, db'.events
            = ((soloDB Unit .VERIFYING 0 3).updateSubmission 5 false ()).events
              ++ [ev]
          ∧ ((soloDB Unit .VERIFYING 0 3).updateSubmission 5 false ()).events
            = (soloDB Unit .VERIFYING 0 3).events
          ∧ ev.contract_id = 0
          ∧ ev.old_status = some .VERIFYING
          ∧ ev.metadata
            = .retryInfo ((soloContract .VERIFYING 0 3).retry_count + 1) ()
          ∧ ev.event_type = (if (soloContract .VERIFYING 0 3).retry_count + 1
                < (soloContract .VERIFYING 0 3).max_retries
              then EventType.VERIFICATION_FAILED else .MAX_RETRIES_EXCEEDED)
          ∧ ev.new_status = (if (soloContract .VERIFYING 0 3).retry_count + 1
                < (soloContract .VERIFYING 0 3).max_retries
              then Status.IN_PROGRESS else Status.FAILED) :=
  C2_record_verification_failed (soloDB Unit .VERIFYING 0 3) 0 5 ()
    (soloContract .VERIFYING 0 3) rfl rfl

/-- C4: when a public escrow operation raises (missing contract or
illegal transition), the committed state of the unit of work is exactly
the pre-call state — no observable partial state survives. The second
conjunct shows the rollback is load-bearing: `record_verification_failed`
flushes the submission update and retry increment before the guard, so
the raw (uncommitted) session state can differ from the pre-call state
when the guard then raises. -/
theorem C4_no_partial_state_on_error :
    (∀ {V : Type} (op : Op V) (db : DB V) (e : SvcError),
       (step op db).2 = some e →
       runOp op db = db
       ∧ (runOp op db).contracts = db.contracts
       ∧ (runOp op db).submissions = db.submissions
       ∧ (runOp op db).events = db.events)
    ∧ (∃ (db : DB Unit) (op : Op Unit) (e : SvcError),
       (step op db).2 = some e ∧ (step op db).1 ≠ db) := by
  constructor
  · intro V op db e h
    have hrun : runOp op db = db := by
      unfold runOp
      rcases hs : step op db with ⟨db1, err⟩
      rw [hs] at h
      cases err with
      | none => simp at h
      | some e2 => rfl
    exact ⟨hrun, by rw [hrun], by rw [hrun], by rw [hrun]⟩
  · refine ⟨soloDB Unit .CREATED 0 3, .recordFailed 0 99 (),
      .invalidStateTransition .CREATED .verification_failed_retry, ?_, ?_⟩
    · decide
    · decide

/-- Concrete instantiation of C4: funding a missing contract raises and
commits nothing. -/
theorem C4_no_partial_state_witness :
    runOp (Op.fund 0 "0xTX" "0xESC") (DB.empty Unit) = DB.empty Unit
    ∧ (runOp (Op.fund 0 "0xTX" "0xESC") (DB.empty Unit)).contracts
      = (DB.empty Unit).contracts
    ∧ (runOp (Op.fund 0 "0xTX" "0xESC") (DB.empty Unit)).submissions
      = (DB.empty Unit).submissions
    ∧ (runOp (Op.fund 0 "0xTX" "0xESC") (DB.empty Unit)).events
      = (DB.empty Unit).events :=
  C4_no_partial_state_on_error.1 (Op.fund 0 "0xTX" "0xESC") (DB.empty Unit)
    (.contractNotFound 0) (by decide)

/-- C5 counterexample: with max_retries = 2, after two bad submissions
(each submitted and then verified) the contract is already FAILED with
retry_count 2, so the claimed third submission is rejected by
submit_work with an illegal-transition error rather than accepted. -/
theorem C5_counterexample :
    (s5Final.getContract 0).map Contract.status = some Status.FAILED
    ∧ (s5Final.getContract 0).map Contract.retry_count = some 2
    ∧ (step (Op.submit 0 "bad three" (some "0xW")) s5Final).2
        = some (SvcError.invalidStateTransition .FAILED .worker_submits) := by
  refine ⟨by decide, by decide, by decide⟩

/-- C5 amended: a contract with max_retries = 2 whose verifier rejects
every submission reaches terminal FAILED with retry_count = 2 after TWO
bad submissions, its event log ends with MAX_RETRIES_EXCEEDED, and a
third submission attempt is rejected by submit_work (worker_submits is
illegal from FAILED) leaving the store unchanged. -/
theorem C5_two_bad_submissions_amended :
    (s5Final.getContract 0).map Contract.status = some Status.FAILED
    ∧ (s5Final.getContract 0).map Contract.retry_count = some 2
    ∧ (s5Final.events.getLast?).map (fun e => e.event_type)
        = some EventType.MAX_RETRIES_EXCEEDED
    ∧ ((eventsFor s5Final 0).getLast?).map (fun e => e.event_type)
        = some EventType.MAX_RETRIES_EXCEEDED
    ∧ (step (Op.submit 0 "bad three" (some "0xW")) s5Final).2
        = some (SvcError.invalidStateTransition .FAILED .worker_submits)
    ∧ runOp (Op.submit 0 "bad three" (some "0xW")) s5Final = s5Final := by
  refine ⟨by decide, by decide, by decide, by decide, by decide, by decide⟩

theorem start_verification_ok {V : Type} {db : DB V} {cid : Nat} {c : Contract}
    (hc : db.getContract cid = some c) (hs : c.status = .SUBMITTED) :
    start_verification db cid
      = ((db.putContract { c with status := Status.VERIFYING }).record
          { contract_id := c.id, event_type := .VERIFICATION_STARTED,
            old_status := some .SUBMITTED, new_status := .VERIFYING,
            actor := "SYSTEM", metadata := .empty }, none) := by
  simp only [start_verification, hc]
  rw [show fire c.status .auto_verify = .ok Status.VERIFYING by rw [hs]; rfl]

/-- C10: verify_latest_submission on a SUBMITTED contract with no
submissions moves it to VERIFYING, then records the synthetic
NO_SUBMISSIONS failure through record_verification_failed under a fresh
placeholder submission id: the retry counter is incremented exactly as
for a rejected submission, the contract leaves VERIFYING for IN_PROGRESS
or FAILED, and no submission row is touched because the placeholder
matches no stored submission. -/
theorem C10_verify_no_submissions (db : DB StoredResult) (cid : Nat)
    (rv : String → StoredResult) (c : Contract)
    (hc : db.getContract cid = some c) (hs : c.status = .SUBMITTED)
    (hns : submissionsFor db cid = [])
    (hfresh : ∀ s ∈ db.submissions, s.id < db.next_id) :
    ∃ db2, verify_latest_submission db cid rv
        = (db2, none, some noSubmissionsResult)
      ∧ db2.submissions = db.submissions
      ∧ (∃ c', db2.getContract cid = some c'
          ∧ c'.retry_count = c.retry_count + 1
          ∧ c'.status = (if c.retry_count + 1 < c.max_retries
              then Status.IN_PROGRESS else Status.FAILED)
          ∧ ¬c'.status = Status.VERIFYING)
      ∧ ∃ ev1 ev2, db2.events = db.events ++ [ev1] ++ [ev2]
          ∧ ev1.event_type = .VERIFICATION_STARTED
          ∧ ev2.metadata = .retryInfo (c.retry_count + 1) noSubmissionsResult
          ∧ ev2.event_type = (if c.retry_count + 1 < c.max_retries
              then EventType.VERIFICATION_FAILED else .MAX_RETRIES_EXCEEDED) := by
  have hstart := start_verification_ok hc hs
  have hget1 : ((db.putContract { c with status := Status.VERIFYING }).record
      { contract_id := c.id, event_type := .VERIFICATION_STARTED,
        old_status := some .SUBMITTED, new_status := .VERIFYING,
        actor := "SYSTEM", metadata := .empty }).getContract cid
      = some { c with status := Status.VERIFYING } := by
    rw [getContract_record]
    exact getContract_put _ hc rfl
  have hfind : db.submissions.find? (fun s => s.id == db.next_id) = none := by
    rw [List.find?_eq_none]
    intro s hsmem
    have hlt := hfresh s hsmem
    simp only [beq_iff_eq]
    omega
  obtain ⟨db2, heq2, ⟨c', hg, hrc, hstat⟩, ⟨ev2, hev2, hevbase, _, _, hmeta, htype, _⟩,
      hsub2, _, _, _⟩ :=
    record_failed_ok
      ((db.putContract { c with status := Status.VERIFYING }).record
        { contract_id := c.id, event_type := .VERIFICATION_STARTED,
          old_status := some .SUBMITTED, new_status := .VERIFYING,
          actor := "SYSTEM", metadata := .empty })
      cid db.next_id noSubmissionsResult { c with status := Status.VERIFYING }
      hget1 rfl
  refine ⟨db2, ?_, ?_, ⟨c', hg, hrc, ?_, ?_⟩,
    ⟨{ contract_id := c.id, event_type := .VERIFICATION_STARTED,
       old_status := some .SUBMITTED, new_status := .VERIFYING,
       actor := "SYSTEM", metadata := .empty }, ev2, ?_, rfl, hmeta, htype⟩⟩
  · simp only [verify_latest_submission, hstart]
    rw [show submissionsFor ((db.putContract { c with status := Status.VERIFYING }).record
        { contract_id := c.id, event_type := .VERIFICATION_STARTED,
          old_status := some .SUBMITTED, new_status := .VERIFYING,
          actor := "SYSTEM", metadata := .empty }) cid = ([] : List (Submission StoredResult))
      from hns]
    rw [show ((db.putContract { c with status := Status.VERIFYING }).record
        { contract_id := c.id, event_type := .VERIFICATION_STARTED,
          old_status := some .SUBMITTED, new_status := .VERIFYING,
          actor := "SYSTEM", metadata := .empty }).next_id = db.next_id from rfl]
    rw [heq2]
  · rw [hsub2]
    have hupd : ((db.putContract { c with status := Status.VERIFYING }).record
        { contract_id := c.id, event_type := .VERIFICATION_STARTED,
          old_status := some .SUBMITTED, new_status := .VERIFYING,
          actor := "SYSTEM", metadata := .empty }).updateSubmission
          db.next_id false noSubmissionsResult
        = ((db.putContract { c with status := Status.VERIFYING }).record
        { contract_id := c.id, event_type := .VERIFICATION_STARTED,
          old_status := some .SUBMITTED, new_status := .VERIFYING,
          actor := "SYSTEM", metadata := .empty }) := by
      unfold DB.updateSubmission
      rw [show ((db.putContract { c with status := Status.VERIFYING }).record
          { contract_id := c.id, event_type := .VERIFICATION_STARTED,
            old_status := some .SUBMITTED, new_status := .VERIFYING,
            actor := "SYSTEM", metadata := .empty }).submissions.find?
          (fun s => s.id == db.next_id) = none from hfind]
    rw [hupd]
    rfl
  · exact hstat
  · rw [hstat]
    by_cases hlt : c.retry_count + 1 < c.max_retries
    · rw [if_pos hlt]; intro hcontra; exact Status.noConfusion hcontra
    · rw [if_neg hlt]; intro hcontra; exact Status.noConfusion hcontra
  · rw [hev2, hevbase]
    rfl

/-- Concrete instantiation of C10: a SUBMITTED contract with retry 0 of
max 3 and no submissions ends at IN_PROGRESS with retry 1 and an
untouched submissions table. -/
theorem C10_verify_no_submissions_witness :
    ∃ db2, verify_latest_submission (soloDB StoredResult .SUBMITTED 0 3) 0
        (fun _ => noSubmissionsResult)
        = (db2, none, some noSubmissionsResult)
      ∧ db2.submissions = (soloDB StoredResult .SUBMITTED 0 3).submissions
      ∧ (∃ c', db2.getContract 0 = some c'
          ∧ c'.retry_count = (soloContract .SUBMITTED 0 3).retry_count + 1
          ∧ c'.status = (if (soloContract .SUBMITTED 0 3).retry_count + 1
              < (soloContract .SUBMITTED 0 3).max_retries
              then Status.IN_PROGRESS else Status.FAILED)
          ∧ ¬c'.status = Status.VERIFYING)
      ∧ ∃ ev1 ev2, db2.events
            = (soloDB StoredResult .SUBMITTED 0 3).events ++ [ev1] ++ [ev2]
          ∧ ev1.event_type = .VERIFICATION_STARTED
          ∧ ev2.metadata
            = .retryInfo ((soloContract .SUBMITTED 0 3).retry_count + 1)
              noSubmissionsResult
          ∧ ev2.event_type = (if (soloContract .SUBMITTED 0 3).retry_count + 1
              < (soloContract .SUBMITTED 0 3).max_retries
              then EventType.VERIFICATION_FAILED else .MAX_RETRIES_EXCEEDED) :=
  C10_verify_no_submissions (soloDB StoredResult .SUBMITTED 0 3) 0
    (fun _ => noSubmissionsResult) (soloContract .SUBMITTED 0 3) rfl rfl rfl
    (by intro s hsmem; exact absurd hsmem (by simp [soloDB]))

theorem fire_ok_on_chain : ∀ s t, fire s .on_chain_confirmed = .ok t →
    s = .CREATED ∧ t = .FUNDED := by decide

theorem fire_ok_worker_accepts : ∀ s t, fire s .worker_accepts = .ok t →
    s = .FUNDED ∧ t = .IN_PROGRESS := by decide

theorem fire_ok_worker_submits : ∀ s t, fire s .worker_submits = .ok t →
    s = .IN_PROGRESS ∧ t = .SUBMITTED := by decide

theorem fire_ok_auto_verify : ∀ s t, fire s .auto_verify = .ok t →
    s = .SUBMITTED ∧ t = .VERIFYING := by decide

theorem fire_ok_verification_passed : ∀ s t, fire s .verification_passed = .ok t →
    s = .VERIFYING ∧ t = .COMPLETED := by decide

theorem fire_ok_buyer_disputes : ∀ s t, fire s .buyer_disputes = .ok t →
    (s = .FUNDED ∨ s = .IN_PROGRESS) ∧ t = .DISPUTED := by decide

theorem fund_shape {V : Type} {db db' : DB V} {cid : Nat} {t w : String}
    (h : fund_contract db cid t w = (db', none)) :
    UpdateShape (Op.fund cid t w) db db' cid := by
  cases hc : db.getContract cid with
  | none =>
    simp only [fund_contract, hc] at h
    exact absurd (congrArg Prod.snd h) (by simp)
  | some c =>
    cases hf : fire c.status .on_chain_confirmed with
    | error e =>
      simp only [fund_contract, hc, hf] at h
      exact absurd (congrArg Prod.snd h) (by simp)
    | ok st =>
      obtain ⟨hcs, -⟩ := fire_ok_on_chain c.status st hf
      have heq : fund_contract db cid t w
          = ((db.putContract { c with
              funding_tx_hash := some t
              escrow_wallet_address := some w
              status := Status.FUNDED }).record
            { contract_id := c.id, event_type := .CONTRACT_FUNDED,
              old_status := some .CREATED, new_status := .FUNDED,
              actor := "SYSTEM", metadata := .funded t w }, none) := by
        simp only [fund_contract, hc, hf]
      rw [h] at heq
      have hdb : db' = (db.putContract { c with
          funding_tx_hash := some t
          escrow_wallet_address := some w
          status := Status.FUNDED }).record
          { contract_id := c.id, event_type := .CONTRACT_FUNDED,
            old_status := some .CREATED, new_status := .FUNDED,
            actor := "SYSTEM", metadata := .funded t w } :=
        congrArg Prod.fst heq
      subst hdb
      refine ⟨c, { c with
          funding_tx_hash := some t
          escrow_wallet_address := some w
          status := Status.FUNDED }, _, hc, ?_, rfl, getContract_id hc, ?_, rfl,
        ?_, ⟨.on_chain_confirmed, rfl, rfl⟩, ?_, putContract_map_id db _,
        le_refl _⟩
      · rw [getContract_record]
        exact getContract_put _ hc rfl
      · rw [hcs]
      · rw [hcs]
        intro hh
        exact Status.noConfusion hh
      · intro x hx
        rw [getContract_record]
        apply getContract_put_ne
        intro hh
        have hcid : c.id = x := hh
        exact hx (hcid.symm.trans (getContract_id hc))

theorem fire_ok_failed_retry : ∀ s t, fire s .verification_failed_retry = .ok t →
    s = .VERIFYING ∧ t = .IN_PROGRESS := by decide

theorem fire_ok_max_retries : ∀ s t, fire s .max_retries_exceeded = .ok t →
    s = .VERIFYING ∧ t = .FAILED := by decide

theorem accept_shape {V : Type} {db db' : DB V} {cid : Nat} {w : String}
    (h : accept_contract db cid w = (db', none)) :
    UpdateShape (Op.accept cid w) db db' cid := by
  cases hc : db.getContract cid with
  | none =>
    simp only [accept_contract, hc] at h
    exact absurd (congrArg Prod.snd h) (by simp)
  | some c =>
    by_cases hw : c.worker_wallet.isSome = true
    · simp only [accept_contract, hc, hw] at h
      exact absurd (congrArg Prod.snd h) (by simp)
    · cases hf : fire c.status .worker_accepts with
      | error e =>
        simp only [accept_contract, hc, hf] at h
        rw [if_neg hw] at h
        exact absurd (congrArg Prod.snd h) (by simp)
      | ok st =>
        obtain ⟨hcs, -⟩ := fire_ok_worker_accepts c.status st hf
        have heq : accept_contract db cid w
            = ((db.putContract { c with
                worker_wallet := some w
                status := Status.IN_PROGRESS }).record
              { contract_id := c.id, event_type := .WORKER_ASSIGNED,
                old_status := some .FUNDED, new_status := .IN_PROGRESS,
                actor := w, metadata := .empty }, none) := by
          simp only [accept_contract, hc, hf]
          rw [if_neg hw]
        rw [h] at heq
        have hdb : db' = (db.putContract { c with
            worker_wallet := some w
            status := Status.IN_PROGRESS }).record
            { contract_id := c.id, event_type := .WORKER_ASSIGNED,
              old_status := some .FUNDED, new_status := .IN_PROGRESS,
              actor := w, metadata := .empty } :=
          congrArg Prod.fst heq
        subst hdb
        refine ⟨c, { c with
            worker_wallet := some w
            status := Status.IN_PROGRESS }, _, hc, ?_, rfl, getContract_id hc,
          ?_, rfl, ?_, ⟨.worker_accepts, rfl, rfl⟩, ?_, putContract_map_id db _,
          le_refl _⟩
        · rw [getContract_record]
          exact getContract_put _ hc rfl
        · rw [hcs]
        · rw [hcs]
          intro hh
          exact Status.noConfusion hh
        · intro x hx
          rw [getContract_record]
          apply getContract_put_ne
          intro hh
          have hcid : c.id = x := hh
          exact hx (hcid.symm.trans (getContract_id hc))

theorem submit_shape {V : Type} {db db' : DB V} {cid : Nat} {p : String}
    {w : Option String} (h : submit_work db cid p w = (db', none)) :
    UpdateShape (Op.submit cid p w) db db' cid := by
  cases hc : db.getContract cid with
  | none =>
    simp only [submit_work, hc] at h
    exact absurd (congrArg Prod.snd h) (by simp)
  | some c =>
    cases hf : fire c.status .worker_submits with
    | error e =>
      simp only [submit_work, hc, hf] at h
      exact absurd (congrArg Prod.snd h) (by simp)
    | ok st =>
      obtain ⟨hcs, -⟩ := fire_ok_worker_submits c.status st hf
      have heq : submit_work db cid p w
          = ((DB.mk
              (db.putContract { c with status := Status.SUBMITTED }).contracts
              ((db.putContract { c with status := Status.SUBMITTED }).submissions ++ [({ id := (db.putContract { c with status := Status.SUBMITTED }).next_id, contract_id := c.id, payload := p, submitted_by := Py.orStr w c.worker_wallet, verification_result := none, is_valid := none } : Submission V)])
              (db.putContract { c with status := Status.SUBMITTED }).events
              ((db.putContract { c with status := Status.SUBMITTED }).next_id + 1)).record
            { contract_id := c.id, event_type := .WORK_SUBMITTED, old_status := some .IN_PROGRESS, new_status := .SUBMITTED, actor := (Py.orStr (Py.orStr w c.worker_wallet) (some "UNKNOWN")).getD "UNKNOWN", metadata := .workSubmitted (db.putContract { c with status := Status.SUBMITTED }).next_id },
           none) := by
        simp only [submit_work, hc, hf]
      rw [h] at heq
      have hdb : db' = (DB.mk
          (db.putContract { c with status := Status.SUBMITTED }).contracts
          ((db.putContract { c with status := Status.SUBMITTED }).submissions ++ [({ id := (db.putContract { c with status := Status.SUBMITTED }).next_id, contract_id := c.id, payload := p, submitted_by := Py.orStr w c.worker_wallet, verification_result := none, is_valid := none } : Submission V)])
          (db.putContract { c with status := Status.SUBMITTED }).events
          ((db.putContract { c with status := Status.SUBMITTED }).next_id + 1)).record
          { contract_id := c.id, event_type := .WORK_SUBMITTED, old_status := some .IN_PROGRESS, new_status := .SUBMITTED, actor := (Py.orStr (Py.orStr w c.worker_wallet) (some "UNKNOWN")).getD "UNKNOWN", metadata := .workSubmitted (db.putContract { c with status := Status.SUBMITTED }).next_id } :=
        congrArg Prod.fst heq
      subst hdb
      refine ⟨c, { c with status := Status.SUBMITTED }, _, hc, ?_, rfl,
        getContract_id hc, ?_, rfl, ?_, ⟨.worker_submits, rfl, rfl⟩, ?_,
        putContract_map_id db _, Nat.le_succ _⟩
      · exact getContract_put _ hc rfl
      · rw [hcs]
      · rw [hcs]
        intro hh
        exact Status.noConfusion hh
      · intro x hx
        have hne : ¬({ c with status := Status.SUBMITTED } : Contract).id = x := by
          intro hh
          have hcid : c.id = x := hh
          exact hx (hcid.symm.trans (getContract_id hc))
        exact find?_replace_ne _ hne

theorem startVerification_shape {V : Type} {db db' : DB V} {cid : Nat}
    (h : start_verification db cid = (db', none)) :
    UpdateShape (Op.startVerification cid) db db' cid := by
  cases hc : db.getContract cid with
  | none =>
    simp only [start_verification, hc] at h
    exact absurd (congrArg Prod.snd h) (by simp)
  | some c =>
    cases hf : fire c.status .auto_verify with
    | error e =>
      simp only [start_verification, hc, hf] at h
      exact absurd (congrArg Prod.snd h) (by simp)
    | ok st =>
      obtain ⟨hcs, -⟩ := fire_ok_auto_verify c.status st hf
      have heq : start_verification db cid
          = ((db.putContract { c with status := Status.VERIFYING }).record
            { contract_id := c.id, event_type := .VERIFICATION_STARTED,
              old_status := some .SUBMITTED, new_status := .VERIFYING,
              actor := "SYSTEM", metadata := .empty }, none) := by
        simp only [start_verification, hc, hf]
      rw [h] at heq
      have hdb : db' = (db.putContract { c with status := Status.VERIFYING }).record
          { contract_id := c.id, event_type := .VERIFICATION_STARTED,
            old_status := some .SUBMITTED, new_status := .VERIFYING,
            actor := "SYSTEM", metadata := .empty } :=
        congrArg Prod.fst heq
      subst hdb
      refine ⟨c, { c with status := Status.VERIFYING }, _, hc, ?_, rfl,
        getContract_id hc, ?_, rfl, ?_, ⟨.auto_verify, rfl, rfl⟩, ?_,
        putContract_map_id db _, le_refl _⟩
      · rw [getContract_record]
        exact getContract_put _ hc rfl
      · rw [hcs]
      · rw [hcs]
        intro hh
        exact Status.noConfusion hh
      · intro x hx
        rw [getContract_record]
        apply getContract_put_ne
        intro hh
        have hcid : c.id = x := hh
        exact hx (hcid.symm.trans (getContract_id hc))

theorem recordPassed_shape {V : Type} {db db' : DB V} {cid sid : Nat} {vr : V}
    (h : record_verification_passed db cid sid vr = (db', none)) :
    UpdateShape (Op.recordPassed cid sid vr) db db' cid := by
  cases hc : db.getContract cid with
  | none =>
    simp only [record_verification_passed, hc] at h
    exact absurd (congrArg Prod.snd h) (by simp)
  | some c =>
    cases hf : fire c.status .verification_passed with
    | error e =>
      simp only [record_verification_passed, hc, hf] at h
      exact absurd (congrArg Prod.snd h) (by simp)
    | ok st =>
      obtain ⟨hcs, -⟩ := fire_ok_verification_passed c.status st hf
      have heq : record_verification_passed db cid sid vr
          = (((db.putContract { c with status := Status.COMPLETED }).updateSubmission
              sid true vr).record
            { contract_id := c.id, event_type := .VERIFICATION_PASSED,
              old_status := some .VERIFYING, new_status := .COMPLETED,
              actor := "SYSTEM", metadata := .passedResult vr }, none) := by
        simp only [record_verification_passed, hc, hf]
      rw [h] at heq
      have hdb : db' = ((db.putContract
          { c with status := Status.COMPLETED }).updateSubmission
          sid true vr).record
          { contract_id := c.id, event_type := .VERIFICATION_PASSED,
            old_status := some .VERIFYING, new_status := .COMPLETED,
            actor := "SYSTEM", metadata := .passedResult vr } :=
        congrArg Prod.fst heq
      subst hdb
      refine ⟨c, { c with status := Status.COMPLETED },
        { contract_id := c.id, event_type := .VERIFICATION_PASSED, old_status := some .VERIFYING, new_status := .COMPLETED, actor := "SYSTEM", metadata := .passedResult vr },
        hc, ?_, ?_, getContract_id hc, ?_, rfl, ?_,
        ⟨.verification_passed, rfl, rfl⟩, ?_, ?_, ?_⟩
      · rw [getContract_record, getContract_updateSubmission]
        exact getContract_put _ hc rfl
      · exact congrArg
          (fun l => l ++ [({ contract_id := c.id, event_type := .VERIFICATION_PASSED, old_status := some .VERIFYING, new_status := .COMPLETED, actor := "SYSTEM", metadata := .passedResult vr } : EventRec V)])
          (updateSubmission_events
            (db.putContract { c with status := Status.COMPLETED }) sid true vr)
      · rw [hcs]
      · rw [hcs]
        intro hh
        exact Status.noConfusion hh
      · intro x hx
        rw [getContract_record, getContract_updateSubmission]
        apply getContract_put_ne
        intro hh
        have hcid : c.id = x := hh
        exact hx (hcid.symm.trans (getContract_id hc))
      · have hcmid := updateSubmission_contracts
          (db.putContract { c with status := Status.COMPLETED }) sid true vr
        calc (((db.putContract { c with status := Status.COMPLETED }).updateSubmission sid true vr).contracts.map Contract.id)
            = ((db.putContract { c with status := Status.COMPLETED }).contracts.map Contract.id) := by rw [hcmid]
          _ = db.contracts.map Contract.id := putContract_map_id db _
      · have hnid := updateSubmission_next_id
          (db.putContract { c with status := Status.COMPLETED }) sid true vr
        exact le_of_eq (hnid.symm)

theorem dispute_shape {V : Type} {db db' : DB V} {cid : Nat} {r b : String}
    (h : raise_dispute db cid r b = (db', none)) :
    UpdateShape (Op.dispute cid r b) db db' cid := by
  cases hc : db.getContract cid with
  | none =>
    simp only [raise_dispute, hc] at h
    exact absurd (congrArg Prod.snd h) (by simp)
  | some c =>
    cases hf : fire c.status .buyer_disputes with
    | error e =>
      simp only [raise_dispute, hc, hf] at h
      exact absurd (congrArg Prod.snd h) (by simp)
    | ok st =>
      obtain ⟨hcs, -⟩ := fire_ok_buyer_disputes c.status st hf
      have heq : raise_dispute db cid r b
          = ((db.putContract { c with status := Status.DISPUTED }).record
            { contract_id := c.id, event_type := .DISPUTE_RAISED,
              old_status := some c.status, new_status := .DISPUTED,
              actor := b, metadata := .disputeReason r }, none) := by
        simp only [raise_dispute, hc, hf]
      rw [h] at heq
      have hdb : db' = (db.putContract { c with status := Status.DISPUTED }).record
          { contract_id := c.id, event_type := .DISPUTE_RAISED,
            old_status := some c.status, new_status := .DISPUTED,
            actor := b, metadata := .disputeReason r } :=
        congrArg Prod.fst heq
      subst hdb
      refine ⟨c, { c with status := Status.DISPUTED }, _, hc, ?_, rfl,
        getContract_id hc, rfl, rfl, ?_, ⟨.buyer_disputes, rfl, rfl⟩, ?_,
        putContract_map_id db _, le_refl _⟩
      · rw [getContract_record]
        exact getContract_put _ hc rfl
      · rcases hcs with hcs | hcs
        · rw [hcs]
          intro hh
          exact Status.noConfusion hh
        · rw [hcs]
          intro hh
          exact Status.noConfusion hh
      · intro x hx
        rw [getContract_record]
        apply getContract_put_ne
        intro hh
        have hcid : c.id = x := hh
        exact hx (hcid.symm.trans (getContract_id hc))

theorem recordFailed_shape {V : Type} {db db' : DB V} {cid sid : Nat} {vr : V}
    (h : record_verification_failed db cid sid vr = (db', none)) :
    UpdateShape (Op.recordFailed cid sid vr) db db' cid := by
  cases hc : db.getContract cid with
  | none =>
    simp only [record_verification_failed, hc] at h
    exact absurd (congrArg Prod.snd h) (by simp)
  | some c =>
    have hs : c.status = Status.VERIFYING := by
      by_cases hge : c.retry_count + 1 ≥ c.max_retries
      · cases hf : fire c.status .max_retries_exceeded with
        | ok st => exact (fire_ok_max_retries c.status st hf).1
        | error e =>
          simp only [record_verification_failed, hc] at h
          rw [if_pos hge, hf] at h
          exact absurd (congrArg Prod.snd h) (by simp)
      · cases hf : fire c.status .verification_failed_retry with
        | ok st => exact (fire_ok_failed_retry c.status st hf).1
        | error e =>
          simp only [record_verification_failed, hc] at h
          rw [if_neg hge, hf] at h
          exact absurd (congrArg Prod.snd h) (by simp)
    obtain ⟨db2, heq, ⟨c', hg, hrc, hstat⟩,
        ⟨ev, hev, hevbase, hevcid, hevold, hmeta, htype, hevnew⟩,
        hsubs, hothers, hmap, hnext⟩ :=
      record_failed_ok db cid sid vr c hc hs
    have hdb : db' = db2 := by
      rw [h] at heq
      exact congrArg Prod.fst heq
    subst hdb
    refine ⟨c, c', ev, hc, hg, ?_, hevcid, by rw [hevold, hs],
      by rw [hevnew, hstat], ?_, ?_, hothers, hmap, by rw [hnext]⟩
    · rw [hev, hevbase]
    · rw [hs, hstat]
      by_cases hlt : c.retry_count + 1 < c.max_retries
      · rw [if_pos hlt]
        intro hh
        exact Status.noConfusion hh
      · rw [if_neg hlt]
        intro hh
        exact Status.noConfusion hh
    · refine ⟨if c.retry_count + 1 ≥ c.max_retries then .max_retries_exceeded
        else .verification_failed_retry, ?_, ?_⟩
      · simp only [firedEvent, hc]
        by_cases hge : c.retry_count + 1 ≥ c.max_retries
        · rw [if_pos hge, if_pos hge]
        · rw [if_neg hge, if_neg hge]
      · rw [htype]
        by_cases hlt : c.retry_count + 1 < c.max_retries
        · rw [if_pos hlt, if_neg (show ¬c.retry_count + 1 ≥ c.max_retries by omega)]
          rfl
        · rw [if_neg hlt, if_pos (show c.retry_count + 1 ≥ c.max_retries by omega)]
          rfl

theorem create_shape {V : Type} (db : DB V) (b : String) (a : ℚ) (d : String)
    (m : Nat) {db' : DB V} (h : step (Op.create b a d m) db = (db', none)) :
    CreateShape db db' := by
  have hdb : db' = (step (Op.create b a d m) db).1 := by rw [h]
  subst hdb
  exact ⟨_, _, rfl, rfl, rfl, rfl, rfl, rfl, rfl, rfl, rfl, rfl⟩

theorem step_update_shape {V : Type} {op : Op V} {db db' : DB V} {cid : Nat}
    (htgt : opTarget op = some cid) (h : step op db = (db', none)) :
    UpdateShape op db db' cid := by
  cases op with
  | create b a d m => exact absurd htgt (by simp [opTarget])
  | fund cid2 t w =>
    have hcc : cid2 = cid := Option.some.inj htgt
    subst hcc
    exact fund_shape h
  | accept cid2 w =>
    have hcc : cid2 = cid := Option.some.inj htgt
    subst hcc
    exact accept_shape h
  | submit cid2 p w =>
    have hcc : cid2 = cid := Option.some.inj htgt
    subst hcc
    exact submit_shape h
  | startVerification cid2 =>
    have hcc : cid2 = cid := Option.some.inj htgt
    subst hcc
    exact startVerification_shape h
  | recordPassed cid2 sid vr =>
    have hcc : cid2 = cid := Option.some.inj htgt
    subst hcc
    exact recordPassed_shape h
  | recordFailed cid2 sid vr =>
    have hcc : cid2 = cid := Option.some.inj htgt
    subst hcc
    exact recordFailed_shape h
  | dispute cid2 r b =>
    have hcc : cid2 = cid := Option.some.inj htgt
    subst hcc
    exact dispute_shape h

theorem eventsFor_append_self {V : Type} {db db' : DB V} {ev : EventRec V}
    (h : db'.events = db.events ++ [ev]) {cid : Nat}
    (hcid : ev.contract_id = cid) :
    eventsFor db' cid = eventsFor db cid ++ [ev] := by
  unfold eventsFor
  rw [h, List.filter_append]
  congr 1
  simp [hcid]

theorem eventsFor_append_other {V : Type} {db db' : DB V} {ev : EventRec V}
    (h : db'.events = db.events ++ [ev]) {cid : Nat}
    (hcid : ¬ev.contract_id = cid) :
    eventsFor db' cid = eventsFor db cid := by
  unfold eventsFor
  rw [h, List.filter_append]
  have : [ev].filter (fun e => e.contract_id == cid) = [] := by
    simp [hcid]
  rw [this, List.append_nil]

theorem eventsFor_empty_of_none {V : Type} {db : DB V} (hinv : Inv db)
    {cid : Nat} (hnone : db.getContract cid = none) : eventsFor db cid = [] := by
  unfold eventsFor
  rw [List.filter_eq_nil_iff]
  intro ev hev
  obtain ⟨c, hcmem, hcid⟩ := hinv.owned ev hev
  have hnc := List.find?_eq_none.mp hnone c hcmem
  intro hbeq
  apply hnc
  rw [hcid]
  exact hbeq

theorem getContract_fresh {V : Type} {db : DB V} (hinv : Inv db) :
    db.getContract db.next_id = none := by
  unfold DB.getContract
  rw [List.find?_eq_none]
  intro x hx
  have := hinv.idLt x hx
  simp only [beq_iff_eq]
  omega

theorem inv_create {V : Type} {db db' : DB V} (hinv : Inv db)
    (hs : CreateShape db db') : Inv db' := by
  obtain ⟨cNew, ev, hcs, hsub, hevs, hnext, hid, hstat, hevcid, hevtype,
    hevold, hevnew⟩ := hs
  constructor
  · intro c hcmem
    rw [hcs] at hcmem
    rw [hnext]
    rcases List.mem_append.mp hcmem with hmem | hmem
    · have := hinv.idLt c hmem
      omega
    · have hcn : c = cNew := by simpa using hmem
      subst hcn
      omega
  · intro ev0 hev0
    rw [hevs] at hev0
    rcases List.mem_append.mp hev0 with hmem | hmem
    · obtain ⟨c0, hc0, hcid0⟩ := hinv.owned ev0 hmem
      exact ⟨c0, by rw [hcs]; exact List.mem_append_left _ hc0, hcid0⟩
    · have hen : ev0 = ev := by simpa using hmem
      subst hen
      refine ⟨cNew, by rw [hcs]; exact List.mem_append_right _ (by simp), ?_⟩
      rw [hid, hevcid]
  · intro cid
    by_cases hcid : ev.contract_id = cid
    · have hcidn : cid = db.next_id := by rw [← hcid, hevcid]
      subst hcidn
      rw [eventsFor_append_self hevs hcid,
        eventsFor_empty_of_none hinv (getContract_fresh hinv), List.nil_append]
      exact List.chain'_singleton ev
    · rw [eventsFor_append_other hevs hcid]
      exact hinv.chain cid
  · intro cid c hcget
    have hgcNew : db'.getContract db.next_id = some cNew := by
      have hnone : db.contracts.find? (fun x => x.id == db.next_id) = none := by
        rw [List.find?_eq_none]
        intro x hx
        have := hinv.idLt x hx
        simp only [beq_iff_eq]
        omega
      show (db'.contracts).find? (fun x => x.id == db.next_id) = some cNew
      rw [hcs, List.find?_append, hnone]
      simp [hid]
    by_cases hcid : ev.contract_id = cid
    · have hcidn : cid = db.next_id := by rw [← hcid, hevcid]
      subst hcidn
      have hcc : c = cNew := by
        rw [hgcNew] at hcget
        exact (Option.some.inj hcget).symm
      subst hcc
      rw [eventsFor_append_self hevs hcid,
        eventsFor_empty_of_none hinv (getContract_fresh hinv), List.nil_append]
      simp [hevnew, hstat]
    · have hgc : db'.getContract cid = db.getContract cid := by
        show (db'.contracts).find? (fun x => x.id == cid)
          = db.contracts.find? (fun x => x.id == cid)
        rw [hcs, List.find?_append]
        cases hfind : db.contracts.find? (fun x => x.id == cid) with
        | some c0 => rfl
        | none =>
          have hne : ¬cNew.id = cid := by
            rw [hid]
            intro he
            exact hcid (hevcid.trans he)
          simp [hne]
      rw [eventsFor_append_other hevs hcid]
      rw [hgc] at hcget
      exact hinv.lastMatch cid c hcget

theorem inv_update {V : Type} {op : Op V} {db db' : DB V} {cid : Nat}
    (hinv : Inv db) (hs : UpdateShape op db db' cid) : Inv db' := by
  obtain ⟨c, c', ev, hc, hg, hevs, hevcid, hevold, hevnew, hne,
    _, hothers, hmap, hnext⟩ := hs
  constructor
  · intro x hx
    have hxid : x.id ∈ db.contracts.map Contract.id := by
      rw [← hmap]
      exact List.mem_map_of_mem _ hx
    obtain ⟨y, hy, hyid⟩ := List.mem_map.mp hxid
    have := hinv.idLt y hy
    omega
  · intro ev0 hev0
    rw [hevs] at hev0
    rcases List.mem_append.mp hev0 with hmem | hmem
    · obtain ⟨y, hy, hyid⟩ := hinv.owned ev0 hmem
      have hyid' : y.id ∈ db'.contracts.map Contract.id := by
        rw [hmap]
        exact List.mem_map_of_mem _ hy
      obtain ⟨x, hx, hxid⟩ := List.mem_map.mp hyid'
      exact ⟨x, hx, hxid.trans hyid⟩
    · have hen : ev0 = ev := by simpa using hmem
      subst hen
      refine ⟨c', List.mem_of_find?_eq_some hg, ?_⟩
      rw [hevcid]
      exact getContract_id hg
  · intro cid0
    by_cases hcid0 : ev.contract_id = cid0
    · have hcc : cid0 = cid := by rw [← hcid0, hevcid]
      subst hcc
      rw [eventsFor_append_self hevs hcid0]
      rw [List.chain'_append]
      refine ⟨hinv.chain cid0, List.chain'_singleton ev, ?_⟩
      intro x hx y hy
      have hyev : y = ev := Eq.symm (by simpa using hy)
      have hlm := hinv.lastMatch cid0 c (by rw [← hcid0, hevcid] at hc ⊢; exact hc)
      have hx' : (eventsFor db cid0).getLast? = some x := hx
      rw [hx'] at hlm
      have hxs : x.new_status = c.status := by
        simpa using hlm
      show y.old_status = some x.new_status
      rw [hyev, hevold, hxs]
    · rw [eventsFor_append_other hevs hcid0]
      exact hinv.chain cid0
  · intro cid0 c0 hc0
    by_cases hcid0 : ev.contract_id = cid0
    · have hcc : cid0 = cid := by rw [← hcid0, hevcid]
      subst hcc
      have hcc' : c0 = c' := by
        rw [hg] at hc0
        exact (Option.some.inj hc0).symm
      subst hcc'
      rw [eventsFor_append_self hevs hcid0, List.getLast?_concat]
      simp [hevnew]
    · have hne0 : ¬cid0 = cid := by
        intro he
        exact hcid0 (by rw [hevcid, he])
      rw [eventsFor_append_other hevs hcid0]
      rw [hothers cid0 hne0] at hc0
      exact hinv.lastMatch cid0 c0 hc0

theorem inv_runOp {V : Type} {op : Op V} {db : DB V} (hinv : Inv db) :
    Inv (runOp op db) := by
  unfold runOp
  cases hstep : step op db with
  | mk db1 err =>
    cases err with
    | none =>
      cases op with
      | create b a d m => exact inv_create hinv (create_shape db b a d m hstep)
      | fund cid t w =>
        exact inv_update hinv (step_update_shape
          (show opTarget (Op.fund cid t w) = some cid from rfl) hstep)
      | accept cid w =>
        exact inv_update hinv (step_update_shape
          (show opTarget (Op.accept cid w) = some cid from rfl) hstep)
      | submit cid p w =>
        exact inv_update hinv (step_update_shape
          (show opTarget (Op.submit cid p w) = some cid from rfl) hstep)
      | startVerification cid =>
        exact inv_update hinv (step_update_shape
          (show opTarget (Op.startVerification (V := V) cid) = some cid from rfl) hstep)
      | recordPassed cid sid vr =>
        exact inv_update hinv (step_update_shape
          (show opTarget (Op.recordPassed cid sid vr) = some cid from rfl) hstep)
      | recordFailed cid sid vr =>
        exact inv_update hinv (step_update_shape
          (show opTarget (Op.recordFailed cid sid vr) = some cid from rfl) hstep)
      | dispute cid r b =>
        exact inv_update hinv (step_update_shape
          (show opTarget (Op.dispute cid r b) = some cid from rfl) hstep)
    | some e => exact hinv

theorem inv_runOps {V : Type} (ops : List (Op V)) {db : DB V} (hinv : Inv db) :
    Inv (runOps ops db) := by
  induction ops generalizing db with
  | nil => exact hinv
  | cons op rest ih => exact ih (inv_runOp hinv)

theorem inv_empty (V : Type) : Inv (DB.empty V) := by
  constructor
  · intro c hcmem
    exact absurd hcmem (List.not_mem_nil c)
  · intro ev hev
    exact absurd hev (List.not_mem_nil ev)
  · intro cid
    exact List.chain'_nil
  · intro cid c hcget
    exact absurd hcget (by simp [DB.getContract, DB.empty])

/-- C3: every successful `EscrowService` operation that changes a
contract's status appends exactly one event whose `old_status` is the
pre-call status, whose `new_status` is the post-call status, and whose
`event_type` is the canonical type of the fired state-machine event
(`UpdateShape`); contract creation appends exactly one CONTRACT_CREATED
event with null `old_status` (`CreateShape`); consequently, after any
sequence of unit-of-work operations from the empty store, each
contract's event log is chained: every event's `old_status` equals the
previous event's `new_status`. -/
theorem C3_event_log_consistency :
    (∀ (V : Type) (b : String) (a : ℚ) (d : String) (m : Nat) (db db' : DB V),
        step (Op.create b a d m) db = (db', none) → CreateShape db db')
    ∧ (∀ (V : Type) (op : Op V) (db db' : DB V) (cid : Nat),
        opTarget op = some cid → step op db = (db', none) →
        UpdateShape op db db' cid)
    ∧ (∀ (V : Type) (ops : List (Op V)) (cid : Nat),
        List.Chain' chainRel (eventsFor (runOps ops (DB.empty V)) cid)) := by
  refine ⟨?_, ?_, ?_⟩
  · intro V b a d m db db' h
    exact create_shape db b a d m h
  · intro V op db db' cid htgt h
    exact step_update_shape htgt h
  · intro V ops cid
    exact (inv_runOps ops (inv_empty V)).chain cid

/-- Instantiation of the event-log consistency theorem: creation from
the empty store, funding of a CREATED contract, and the chained log of
the two-failed-submissions scenario. -/
theorem C3_event_log_consistency_witness :
    CreateShape (DB.empty Unit)
      (step (Op.create "0xB" 100 "demo" 3) (DB.empty Unit)).1
    ∧ UpdateShape (Op.fund 0 "0xT" "0xE") (soloDB Unit .CREATED 0 3)
      (step (Op.fund 0 "0xT" "0xE") (soloDB Unit .CREATED 0 3)).1 0
    ∧ List.Chain' chainRel (eventsFor (runOps s5Ops (DB.empty Unit)) 0) :=
  ⟨C3_event_log_consistency.1 Unit "0xB" 100 "demo" 3 _ _ rfl,
   C3_event_log_consistency.2.1 Unit (Op.fund 0 "0xT" "0xE") _ _ 0 rfl rfl,
   C3_event_log_consistency.2.2 Unit s5Ops 0⟩

end ACH
